import Mathlib

/-!
Verification development for the impact-rpa repository.

The definitions below are a shallow embedding of the core automation engine
(`src/main.py`, with the revised loop of `src/main_updated.py` embedded
separately where the two revisions differ).  Pure string manipulation is
translated directly; the browser environment (element queries, click
outcomes, scroll outcomes, reconnect outcomes, DOM-attribute write success)
is supplied by explicit oracles so that every run of the engine is a
deterministic, executable function of its inputs.
-/

namespace ImpactRpa

/-! ### String helpers mirroring the Python operations used by the source -/

/-- `seqPrefix n h` : the character list `n` is a prefix of `h`. -/
def seqPrefix : List Char → List Char → Bool
  | [], _ => true
  | _ :: _, [] => false
  | a :: as, b :: bs => a == b && seqPrefix as bs

/-- `containsSeq h n` : `n` occurs as a contiguous subsequence of `h`
(the Python `n in h` test on strings). -/
def containsSeq : List Char → List Char → Bool
  | [], n => n.isEmpty
  | h@(_ :: t), n => seqPrefix n h || containsSeq t n

/-- Python `needle in hay` for strings. -/
def containsStr (hay needle : String) : Bool :=
  containsSeq hay.toList needle.toList

/-- Python `str.lower()` restricted to ASCII (all strings the source compares
are ASCII). -/
def pyLower (s : String) : String :=
  String.mk (s.toList.map Char.toLower)

/-- Python `str.replace(" ", "")`: remove every space character. -/
def removeSpaces (s : String) : String :=
  String.mk (s.toList.filter (fun c => !(c == ' ')))

/-- Python `str.strip()`: drop leading and trailing whitespace. -/
def pyStrip (s : String) : String :=
  String.mk (((s.toList.dropWhile Char.isWhitespace).reverse.dropWhile
    Char.isWhitespace).reverse)

/-- Model of `re.sub(r'\s*\(\d+\)\s*$', '', s)` from the source: strip one
trailing parenthesised run of digits, together with the whitespace around it;
if the pattern does not match, the string is unchanged. -/
def stripCountSuffix (s : String) : String :=
  let r := s.toList.reverse
  let r1 := r.dropWhile Char.isWhitespace
  match r1 with
  | ')' :: rest =>
    let digits := rest.takeWhile Char.isDigit
    let rest2 := rest.dropWhile Char.isDigit
    if digits.isEmpty then s
    else
      match rest2 with
      | '(' :: rest3 => String.mk ((rest3.dropWhile Char.isWhitespace).reverse)
      | _ => s
  | _ => s

/-- Model of `re.sub(r'\s+', ' ', s)`: collapse each whitespace run to a
single space.  `prevWs` records whether the previous character was part of a
whitespace run. -/
def collapseWsAux : Bool → List Char → List Char
  | _, [] => []
  | prevWs, c :: rest =>
    if c.isWhitespace then
      if prevWs then collapseWsAux true rest
      else ' ' :: collapseWsAux true rest
    else c :: collapseWsAux false rest

/-- Collapse whitespace runs in a string to single spaces. -/
def collapseWs (s : String) : String :=
  String.mk (collapseWsAux false s.toList)

/-- The normalisation applied to the desired template term and to dropdown
option texts in `main_updated.py` `_select_template_term` (lines 905-906 and
995-996): strip a trailing " (N)" count suffix, trim, lower-case, collapse
whitespace. -/
def normTerm (s : String) : String :=
  collapseWs (pyLower (pyStrip (stripCountSuffix s)))

/-- The disconnect classification used throughout the source
(`'disconnect' in msg or 'context' in msg or 'target closed' in msg` on the
lower-cased message). -/
def disconnMsg (msg : String) : Bool :=
  let m := pyLower msg
  containsStr m "disconnect" || containsStr m "context" || containsStr m "target closed"

/-- Python truthiness of an optional string (`if selected_tab:`). -/
def truthy : Option String → Bool
  | none => false
  | some s => !(s == "")

/-! ### DOM marker state (`data-impact-rpa-counted` / `data-impact-rpa-clicked`) -/

/-- The two marker attributes written by `_mark_button_state`. -/
inductive AttrKind where
  | countedA
  | clickedA
deriving DecidableEq

/-- The persisted marker attributes of one target element; `none` models an
absent DOM attribute. -/
structure Marks where
  counted : Option String
  clicked : Option String
deriving DecidableEq

/-- A fresh element carries neither marker. -/
def Marks.fresh : Marks := ⟨none, none⟩

def Marks.get (m : Marks) : AttrKind → Option String
  | .countedA => m.counted
  | .clickedA => m.clicked

def Marks.set (m : Marks) : AttrKind → String → Marks
  | .countedA, v => { m with counted := some v }
  | .clickedA, v => { m with clicked := some v }

/-- The abstract marker state used by the specification. -/
inductive MarkerState where
  | unmarked
  | countedSt
  | clickedSt
deriving DecidableEq

/-- Numeric rank of a marker state along unmarked → counted → clicked. -/
def MarkerState.rank : MarkerState → Nat
  | .unmarked => 0
  | .countedSt => 1
  | .clickedSt => 2

/-- The marker state encoded by a pair of attributes. -/
def Marks.state (m : Marks) : MarkerState :=
  if m.clicked = some "true" then .clickedSt
  else if m.counted = some "true" then .countedSt
  else .unmarked

/-- Embedding of `ProposalSender._mark_button_state` (main.py lines 927-941)
specialised to the only value ever written, `"true"`.  `okb` is the oracle for
whether the underlying attribute write (direct write, else the in-page script
fallback) succeeds.  Returns the new marks, the boolean result of the method,
and whether a write was actually attempted (the method returns `True` without
writing when the attribute already holds the value). -/
def markWrite (okb : Bool) (m : Marks) (a : AttrKind) : Marks × Bool × Bool :=
  if m.get a = some "true" then (m, true, false)
  else if okb then (m.set a "true", true, true)
  else (m, false, true)

/-! ### The batch scan (main.py `send_proposals` lines 454-471) -/

/-- Accumulator for the scan over the currently visible Send Proposal
buttons.  `dom` maps element ids to their persisted markers; `pending`,
`totalDetected` and `newly` are the loop variables `pending_batch_buttons`,
`total_detected_buttons` and `newly_counted`; `nMark` counts attribute write
attempts (it indexes the write-success oracle); `available` collects the ids
appended to `available_buttons`. -/
structure ScanAcc where
  dom : Nat → Marks
  pending : Int
  totalDetected : Nat
  nMark : Nat
  available : List Nat
  newly : Nat

/-- Pointwise update of the marker store. -/
def updDom (d : Nat → Marks) (i : Nat) (m : Marks) : Nat → Marks :=
  fun j => if j = i then m else d j

/-- One pass of the scan loop of main.py lines 463-471: skip buttons whose
clicked marker is `"true"`; mark not-yet-counted buttons counted (counting
them only if the write reports success); append every surviving button to
`available_buttons`. -/
def scanGo (markOk : Nat → Bool) : List Nat → ScanAcc → ScanAcc
  | [], acc => acc
  | id :: rest, acc =>
    let m := acc.dom id
    if m.clicked = some "true" then
      scanGo markOk rest acc
    else
      if m.counted ≠ some "true" then
        let w := markWrite (markOk acc.nMark) m .countedA
        scanGo markOk rest
          { acc with
            dom := updDom acc.dom id w.1
            nMark := acc.nMark + 1
            pending := if w.2.1 then acc.pending + 1 else acc.pending
            totalDetected := if w.2.1 then acc.totalDetected + 1 else acc.totalDetected
            newly := if w.2.1 then acc.newly + 1 else acc.newly
            available := acc.available ++ [id] }
      else
        scanGo markOk rest { acc with available := acc.available ++ [id] }

/-- Scan the visible button ids starting from a marker store and the current
batch counters. -/
def scanButtons (markOk : Nat → Bool) (ids : List Nat) (dom : Nat → Marks)
    (pending : Int) (totalDetected : Nat) (nMark : Nat) : ScanAcc :=
  scanGo markOk ids
    { dom := dom, pending := pending, totalDetected := totalDetected,
      nMark := nMark, available := [], newly := 0 }

/-! ### Environment oracles and observable events of `send_proposals` -/

/-- Observable events of one engine run.  Scroll events record the value of
`pending_batch_buttons` at the moment `scroll_down` is called. -/
inductive Event where
  | scrolled (pending : Int)
  | scrollFailed (pending : Int)
  | reconAttempted (ok : Bool) (attempts : Nat)
  | clickedBtn (id : Nat)
  | pendingReset (old : Int)
  | buttonsNoneBranch
  | notified (msg : String)
deriving DecidableEq, Repr

/-- Outcome of one call to `target.eles(...)` inside
`BrowserManager.find_elements` (main.py lines 286-317).  `errTyped` is one of
the exception types caught explicitly (`ElementNotFoundError`,
`PageDisconnectedError`, `ContextLostError`); `errMsg` is a generic exception
classified by its message. -/
inductive ElesRes where
  | ok (items : List (Nat × String))
  | errTyped (msg : String)
  | errMsg (msg : String)
deriving DecidableEq

/-- Embedding of `BrowserManager.find_elements`: typed not-found/disconnect
exceptions and message-classified disconnect exceptions become an empty list;
any other exception is re-raised.  The method never produces `None`. -/
def findElements : ElesRes → Except String (List (Nat × String))
  | .ok items => .ok items
  | .errTyped _ => .ok []
  | .errMsg msg => if disconnMsg msg then .ok [] else .error msg

/-- Outcome of the whole click attempt on one available button
(main.py lines 509-553): the bounded parent-climb ladder either clicks the
button, gives up with a non-disconnect error (`continue` to the next button),
or a disconnect-classified exception escapes (`consecutive_errors += 1` and
`break`).  When the click lands, `_handle_proposal_modal` runs; it can only
re-raise disconnect-classified exceptions (`modalDisconnect`). -/
inductive BtnOutcome where
  | clickFail
  | disconnectErr
  | clicked (modalDisconnect : Bool)
deriving DecidableEq

/-- The deterministic environment of one run: what each successive browser
interaction does.  `findRes` is indexed by the find-call counter, `btnRes` by
the button-attempt counter, `scrollOk` by the scroll counter, `markOk` by the
attribute-write counter, and `reconOk r i` is the outcome of attempt `i` of
the `r`-th `BrowserManager.reconnect` call. -/
structure LoopEnv where
  findRes : Nat → ElesRes
  markOk : Nat → Bool
  btnRes : Nat → BtnOutcome
  scrollOk : Nat → Bool
  reconOk : Nat → Nat → Bool

/-- Embedding of `BrowserManager.reconnect` (main.py lines 230-247):
up to `n` session re-acquisition attempts, stopping at the first success;
returns the result together with the number of attempts made. -/
def reconnectAux (ok : Nat → Bool) : Nat → Nat → Bool × Nat
  | 0, used => (false, used)
  | n + 1, used => if ok used then (true, used + 1) else reconnectAux ok n (used + 1)

/-- `BrowserManager.reconnect` with its `max_retries = 3` bound. -/
def reconnectFn (ok : Nat → Bool) : Bool × Nat :=
  reconnectAux ok 3 0

/-! ### The batch click loop (main.py lines 500-553) -/

/-- State threaded through the `for btn in send_proposal_buttons` loop. -/
structure BatchAcc where
  dom : Nat → Marks
  clickedCount : Nat
  pending : Int
  errors : Nat
  nBtn : Nat
  nMark : Nat
  shouldScroll : Bool
  events : List Event

/-- Result of the batch loop: `retNow` is the early `return clicked_count`
of lines 503-507 (target reached at a button head); `finished` covers normal
exhaustion and the disconnect `break` of line 549. -/
inductive BatchRes where
  | retNow (b : BatchAcc)
  | finished (b : BatchAcc)

/-- The bookkeeping of one successful click (main.py lines 521-535):
`clicked_count += 1`, mark the element clicked, decrement the pending count
with floor 0 when positive, and set the scroll flag when it reaches 0. -/
def clickUpdate (env : LoopEnv) (id : Nat) (b : BatchAcc) : BatchAcc :=
  let w := markWrite (env.markOk b.nMark) (b.dom id) .clickedA
  let pending1 := if b.pending > 0 then max (b.pending - 1) 0 else b.pending
  { b with
    nBtn := b.nBtn + 1
    clickedCount := b.clickedCount + 1
    dom := updDom b.dom id w.1
    nMark := if w.2.2 then b.nMark + 1 else b.nMark
    pending := pending1
    shouldScroll := if pending1 = 0 then true else b.shouldScroll
    events := b.events ++ [Event.clickedBtn id] }

/-- One run of the batch click loop (main.py lines 500-553): stop with the
early return when the target is reached, skip buttons whose click ladder
fails, break on a disconnect, and apply `clickUpdate` plus the modal call on
each successful click (a disconnect-classified exception from the modal
increments `consecutive_errors` and breaks out of the batch). -/
def batchGo (env : LoopEnv) (maxCount : Nat) : List Nat → BatchAcc → BatchRes
  | [], b => .finished b
  | id :: rest, b =>
    if b.clickedCount ≥ maxCount then .retNow b
    else
      match env.btnRes b.nBtn with
      | .clickFail => batchGo env maxCount rest { b with nBtn := b.nBtn + 1 }
      | .disconnectErr => .finished { b with nBtn := b.nBtn + 1, errors := b.errors + 1 }
      | .clicked mdisc =>
        let b1 := clickUpdate env id b
        if mdisc then .finished { b1 with errors := b1.errors + 1 }
        else batchGo env maxCount rest b1

/-! ### The main loop of main.py `send_proposals` (lines 422-591) -/

/-- The run state of `send_proposals`: its local counters, the persistent DOM
marker store, and the oracle consumption counters. -/
structure LoopState where
  clickedCount : Nat
  totalScrolls : Nat
  errors : Nat
  pending : Int
  totalDetected : Nat
  dom : Nat → Marks
  nFind : Nat
  nBtn : Nat
  nScroll : Nat
  nRecon : Nat
  nMark : Nat

/-- The state at the top of the while loop, before any iteration. -/
def initState : LoopState :=
  { clickedCount := 0, totalScrolls := 0, errors := 0, pending := 0,
    totalDetected := 0, dom := fun _ => Marks.fresh,
    nFind := 0, nBtn := 0, nScroll := 0, nRecon := 0, nMark := 0 }

/-- Result of one while-iteration: the run either returns with the final
clicked count or continues with a new state; both carry the events of the
iteration. -/
inductive StepRes where
  | done (count : Nat) (evs : List Event)
  | cont (s : LoopState) (evs : List Event)

/-- `scroll_down(500)` followed by the bookkeeping of each of the three
scroll sites (`if not scroll_down: consecutive_errors += 1; continue`, else
sleep and `total_scrolls += 1`). -/
def doScroll (env : LoopEnv) (s : LoopState) : LoopState × Event :=
  if env.scrollOk s.nScroll then
    ({ s with totalScrolls := s.totalScrolls + 1, nScroll := s.nScroll + 1 },
     .scrolled s.pending)
  else
    ({ s with errors := s.errors + 1, nScroll := s.nScroll + 1 },
     .scrollFailed s.pending)

/-- Lines 454-459: the ids of the buttons whose text contains
"Send Proposal". -/
def spIdsOf (items : List (Nat × String)) : List Nat :=
  (items.filter (fun p => containsStr p.2 "Send Proposal")).map (fun p => p.1)

/-- The state after the scan has stored its results back into the loop
variables. -/
def scanMerge (env : LoopEnv) (items : List (Nat × String)) (s1 : LoopState) : LoopState :=
  let sc := scanButtons env.markOk (spIdsOf items) s1.dom s1.pending s1.totalDetected s1.nMark
  { s1 with dom := sc.dom, pending := sc.pending,
            totalDetected := sc.totalDetected, nMark := sc.nMark }

/-- Lines 481-493: no available buttons — scroll if nothing is pending, else
reset the pending count to avoid blocking. -/
def emptyBranch (env : LoopEnv) (s2 : LoopState) (evs0 : List Event) : StepRes :=
  if s2.pending ≤ 0 then
    let r := doScroll env s2
    .cont r.1 (evs0 ++ [r.2])
  else
    .cont { s2 with pending := 0 } (evs0 ++ [Event.pendingReset s2.pending])

/-- The batch state fed into the click loop by lines 500-501. -/
def batchInit (s3 : LoopState) : BatchAcc :=
  { dom := s3.dom, clickedCount := s3.clickedCount, pending := s3.pending,
    errors := s3.errors, nBtn := s3.nBtn, nMark := s3.nMark,
    shouldScroll := false, events := [] }

/-- The loop state after the batch result is merged back. -/
def batchMerge (s3 : LoopState) (b : BatchAcc) : LoopState :=
  { s3 with dom := b.dom, clickedCount := b.clickedCount, pending := b.pending,
            errors := b.errors, nBtn := b.nBtn, nMark := b.nMark }

/-- Lines 500-578: run the batch click loop and then either return (early
return or target reached), scroll, or continue without scrolling. -/
def batchBranch (env : LoopEnv) (maxCount : Nat) (s3 : LoopState)
    (avail : List Nat) (evs0 : List Event) : StepRes :=
  match batchGo env maxCount avail (batchInit s3) with
  | .retNow b => .done b.clickedCount (evs0 ++ b.events)
  | .finished b =>
    let s4 := batchMerge s3 b
    if s4.clickedCount ≥ maxCount then
      -- lines 555-556: break out of the while loop
      .done s4.clickedCount (evs0 ++ b.events)
    else if b.shouldScroll then
      -- lines 558-567
      let r := doScroll env s4
      .cont r.1 (evs0 ++ b.events ++ [r.2])
    else if s4.pending > 0 then
      -- lines 569-571: counted buttons remain, retry without scrolling
      .cont s4 (evs0 ++ b.events)
    else
      -- lines 573-578
      let r := doScroll env s4
      .cont r.1 (evs0 ++ b.events ++ [r.2])

/-- The body of one while-iteration after the reconnect check (main.py lines
443-587): find the visible buttons, scan them, then either scroll, reset the
pending counter, or click through the batch. -/
def stepBody (env : LoopEnv) (maxCount : Nat) (s0 : LoopState)
    (evs0 : List Event) : StepRes :=
  match findElements (env.findRes s0.nFind) with
  | .error _ =>
    -- lines 580-587: the outer except increments consecutive_errors in
    -- both its branches
    .cont { s0 with nFind := s0.nFind + 1, errors := s0.errors + 1 } evs0
  | .ok items =>
    let s1 := { s0 with nFind := s0.nFind + 1 }
    let buttonsOpt : Option (List (Nat × String)) := some items
    match buttonsOpt with
    | none =>
      -- lines 447-452: defensive branch for a None result of find_elements
      let rr := reconnectFn (env.reconOk s1.nRecon)
      .cont { s1 with nRecon := s1.nRecon + 1,
                      errors := if rr.1 then 0 else s1.errors + 1 }
        (evs0 ++ [Event.buttonsNoneBranch, Event.reconAttempted rr.1 rr.2])
    | some buttons =>
      let sc := scanButtons env.markOk (spIdsOf buttons) s1.dom s1.pending
        s1.totalDetected s1.nMark
      let s2 := scanMerge env buttons s1
      if sc.available.isEmpty then emptyBranch env s2 evs0
      else
        -- line 498: reset the consecutive error counter
        batchBranch env maxCount { s2 with errors := 0 } sc.available evs0

/-- One full while-iteration of main.py `send_proposals`: the loop guard
`total_scrolls < max_scrolls` (with `max_scrolls = 100`), then the reconnect
check of lines 424-441 (`max_consecutive_errors = 3`), then the body. -/
def step (env : LoopEnv) (maxCount : Nat) (s : LoopState) : StepRes :=
  if s.totalScrolls ≥ 100 then .done s.clickedCount []
  else if s.errors ≥ 3 then
    let rr := reconnectFn (env.reconOk s.nRecon)
    if rr.1 then
      stepBody env maxCount { s with errors := 0, nRecon := s.nRecon + 1 }
        [Event.reconAttempted true rr.2]
    else
      .done s.clickedCount [Event.reconAttempted false rr.2]
  else stepBody env maxCount s []

/-- Run the loop with the given fuel, accumulating events; `none` means the
fuel ran out before the function returned. -/
def runLoop (env : LoopEnv) (maxCount : Nat) : Nat → LoopState → List Event × Option Nat
  | 0, _ => ([], none)
  | n + 1, s =>
    match step env maxCount s with
    | .done c evs => (evs, some c)
    | .cont s' evs =>
      let r := runLoop env maxCount n s'
      (evs ++ r.1, r.2)

/-- The loop state after `n` continuing iterations (`none` once the run has
returned). -/
def iterState (env : LoopEnv) (maxCount : Nat) : Nat → LoopState → Option LoopState
  | 0, s => some s
  | n + 1, s =>
    match step env maxCount s with
    | .done _ _ => none
    | .cont s' _ => iterState env maxCount n s'

/-- `send_proposals` terminates on the given environment. -/
def Terminates (env : LoopEnv) (maxCount : Nat) : Prop :=
  ∃ n c, (runLoop env maxCount n initState).2 = some c

/-! ### The revised loop of `main_updated.py` (notifications, lines 611-851) -/

/-- The completion message sent by `send_proposals` in main_updated.py
(lines 735 and 847). -/
def notifyMsg (c : Nat) : String :=
  "已成功发送 " ++ toString c ++ " 个 Proposal"

/-- Result of one while-iteration of the main_updated.py loop; `raised`
models the `raise` of line 837 propagating out of `send_proposals`. -/
inductive StepResU where
  | done (count : Nat) (evs : List Event)
  | raised (msg : String) (evs : List Event)
  | cont (s : LoopState) (evs : List Event)

/-- The no-available-buttons branch of the main_updated.py loop (identical
to `emptyBranch`, in the revised result type). -/
def emptyBranchU (env : LoopEnv) (s2 : LoopState) (evs0 : List Event) : StepResU :=
  if s2.pending ≤ 0 then
    let r := doScroll env s2
    .cont r.1 (evs0 ++ [r.2])
  else
    .cont { s2 with pending := 0 } (evs0 ++ [Event.pendingReset s2.pending])

/-- The batch branch of the main_updated.py loop: as `batchBranch`, but both
return paths send one notification carrying the final count (lines 726-738
and 840-851). -/
def batchBranchU (env : LoopEnv) (maxCount : Nat) (s3 : LoopState)
    (avail : List Nat) (evs0 : List Event) : StepResU :=
  match batchGo env maxCount avail (batchInit s3) with
  | .retNow b =>
    .done b.clickedCount
      (evs0 ++ b.events ++ [Event.notified (notifyMsg b.clickedCount)])
  | .finished b =>
    let s4 := batchMerge s3 b
    if s4.clickedCount ≥ maxCount then
      .done s4.clickedCount
        (evs0 ++ b.events ++ [Event.notified (notifyMsg s4.clickedCount)])
    else if b.shouldScroll then
      let r := doScroll env s4
      .cont r.1 (evs0 ++ b.events ++ [r.2])
    else if s4.pending > 0 then
      .cont s4 (evs0 ++ b.events)
    else
      let r := doScroll env s4
      .cont r.1 (evs0 ++ b.events ++ [r.2])

/-- Body of one while-iteration of main_updated.py `send_proposals`
(lines 667-838).  It differs from the main.py body in two places: the outer
exception handler re-raises messages containing `template_term_not_found`
(lines 836-837), and every exit through the end of the function or the
early return of lines 726-738 sends one notification with the final count. -/
def stepBodyU (env : LoopEnv) (maxCount : Nat) (s0 : LoopState)
    (evs0 : List Event) : StepResU :=
  match findElements (env.findRes s0.nFind) with
  | .error msg =>
    if disconnMsg msg then
      .cont { s0 with nFind := s0.nFind + 1, errors := s0.errors + 1 } evs0
    else if containsStr (pyLower msg) "template_term_not_found" then
      .raised msg evs0
    else
      .cont { s0 with nFind := s0.nFind + 1, errors := s0.errors + 1 } evs0
  | .ok items =>
    let s1 := { s0 with nFind := s0.nFind + 1 }
    let buttonsOpt : Option (List (Nat × String)) := some items
    match buttonsOpt with
    | none =>
      let rr := reconnectFn (env.reconOk s1.nRecon)
      .cont { s1 with nRecon := s1.nRecon + 1,
                      errors := if rr.1 then 0 else s1.errors + 1 }
        (evs0 ++ [Event.buttonsNoneBranch, Event.reconAttempted rr.1 rr.2])
    | some buttons =>
      let sc := scanButtons env.markOk (spIdsOf buttons) s1.dom s1.pending
        s1.totalDetected s1.nMark
      let s2 := scanMerge env buttons s1
      if sc.available.isEmpty then emptyBranchU env s2 evs0
      else batchBranchU env maxCount { s2 with errors := 0 } sc.available evs0

/-- One full while-iteration of main_updated.py `send_proposals`: every path
that leaves the while loop falls through to lines 840-851 and sends exactly
one notification carrying the final clicked count. -/
def stepU (env : LoopEnv) (maxCount : Nat) (s : LoopState) : StepResU :=
  if s.totalScrolls ≥ 100 then
    .done s.clickedCount [Event.notified (notifyMsg s.clickedCount)]
  else if s.errors ≥ 3 then
    let rr := reconnectFn (env.reconOk s.nRecon)
    if rr.1 then
      stepBodyU env maxCount { s with errors := 0, nRecon := s.nRecon + 1 }
        [Event.reconAttempted true rr.2]
    else
      -- lines 653-665 break, then lines 840-851
      .done s.clickedCount
        [Event.reconAttempted false rr.2, Event.notified (notifyMsg s.clickedCount)]
  else stepBodyU env maxCount s []

/-- Run the main_updated.py loop with fuel; the result is `Except.error` when
`send_proposals` raises. -/
def runLoopU (env : LoopEnv) (maxCount : Nat) :
    Nat → LoopState → List Event × Option (Except String Nat)
  | 0, _ => ([], none)
  | n + 1, s =>
    match stepU env maxCount s with
    | .done c evs => (evs, some (.ok c))
    | .raised msg evs => (evs, some (.error msg))
    | .cont s' evs =>
      let r := runLoopU env maxCount n s'
      (evs ++ r.1, r.2)

/-- Caller-side completion message of `ImpactRPA._start_send_proposals`
(main_updated.py line 1713). -/
def callerOkMsg (c : Nat) : String :=
  "发送完成，共发送 " ++ toString c ++ " 个"

/-- Caller-side failure message of `ImpactRPA._start_send_proposals`
(main_updated.py line 1719). -/
def callerErrMsg (e : String) : String :=
  "发送失败: " ++ e

/-- Embedding of `ImpactRPA._start_send_proposals` (main_updated.py lines
1709-1721): run `send_proposals` and then send one more notification, a
completion message on normal return or a failure message when it raised.
The result is the full sequence of events of the launched run. -/
def startSendProposals (env : LoopEnv) (maxCount : Nat) (fuel : Nat) : List Event :=
  match runLoopU env maxCount fuel initState with
  | (evs, some (.ok c)) => evs ++ [Event.notified (callerOkMsg c)]
  | (evs, some (.error e)) => evs ++ [Event.notified (callerErrMsg e)]
  | (evs, none) => evs

/-- Whether an event is an invocation of the notification sink. -/
def Event.isNotify : Event → Bool
  | .notified _ => true
  | _ => false

/-! ### Calendar arithmetic for `_select_tomorrow_date` -/

/-- A Gregorian calendar date (`datetime` restricted to its date part). -/
structure Date where
  year : Nat
  month : Nat
  day : Nat
deriving DecidableEq

def isLeapYear (y : Nat) : Bool :=
  (y % 4 = 0 && y % 100 ≠ 0) || y % 400 = 0

def daysInMonth (y m : Nat) : Nat :=
  if m = 2 then (if isLeapYear y then 29 else 28)
  else if m = 4 ∨ m = 6 ∨ m = 9 ∨ m = 11 then 30
  else 31

/-- `datetime.now() + timedelta(days=1)` on the date part. -/
def nextDay (d : Date) : Date :=
  if d.day < daysInMonth d.year d.month then { d with day := d.day + 1 }
  else if d.month < 12 then { d with month := d.month + 1, day := 1 }
  else { year := d.year + 1, month := 1, day := 1 }

/-! ### `_select_tomorrow_date` (main.py lines 770-809) -/

/-- Environment of one date-selection attempt: whether the date-input button
is found, the texts of the candidate calendar cells, and whether the
`text={tomorrow_day}` fallback locator finds an element. -/
structure DateEnv where
  dateBtnPresent : Bool
  cellTexts : List String
  textEleFound : Bool

/-- Embedding of `_select_tomorrow_date`: open the date control, compute
tomorrow, click the first cell whose stripped text equals tomorrow's
day-of-month, falling back to a text locator; every failure returns `False`
(all exceptions are caught inside the method).  The second component is the
text of the clicked cell, `none` when nothing was clicked. -/
def selectTomorrowDate (env : DateEnv) (today : Date) : Bool × Option String :=
  if !env.dateBtnPresent then (false, none)
  else
    let tday := toString (nextDay today).day
    match env.cellTexts.find? (fun c => pyStrip c == tday) with
    | some c => (true, some c)
    | none => if env.textEleFound then (true, some tday) else (false, none)

/-! ### `_input_tag_and_select` (main.py lines 727-768) -/

/-- Environment of one category-tag entry: presence of the tag input and of
the suggestion dropdown, the text of the preferred suggestion node
(`div._4-15-1_Baf2T`), and the texts of the `li` fallback options. -/
structure TagEnv where
  tagInputPresent : Bool
  dropdownPresent : Bool
  optionDivText : Option String
  liTexts : List String

/-- The mismatch message of main.py line 759 (the source wraps both values
in single quotes, omitted here). -/
def tagMismatchMsg (typed cat : String) : String :=
  "输入值 " ++ typed ++ " 与下拉选项 " ++ cat ++ " 不匹配"

/-- Embedding of `_input_tag_and_select`: type the category label with
spaces removed, take the first suggestion, strip its trailing " (N)" count
suffix and its spaces, and compare case-insensitively with the typed text;
on mismatch raise without clicking, on match click the first suggestion.
`Except.ok` carries the text of the clicked suggestion; `Except.error` is
the message of the exception re-raised by the method (line 768). -/
def inputTagAndSelect (env : TagEnv) (selectedTab : String) : Except String String :=
  let searchText := removeSpaces selectedTab
  if !env.tagInputPresent then .error "未找到 tag-input 输入框"
  else if !env.dropdownPresent then .error "未找到下拉列表"
  else
    let optionDiv? : Option String :=
      match env.optionDivText with
      | some t => some t
      | none => env.liTexts.head?
    match optionDiv? with
    | none => .error "下拉列表中没有选项"
    | some t =>
      let optionText := pyStrip t
      let optionCategory := removeSpaces (stripCountSuffix optionText)
      if pyLower searchText ≠ pyLower optionCategory then
        .error (tagMismatchMsg searchText optionCategory)
      else .ok optionText

/-! ### `_select_template_term` of main_updated.py (lines 901-1071) -/

/-- Environment of one template-term selection: the native `<select>` (absent,
or present with the given success of `select(desired)`), the final popped-up
dropdown with its `li[role=option]` texts and its `div.text-ellipsis` texts,
the operator's answer to the interactive pick (validated 1-based index,
`none` for cancel), and the two text-based fallback locators. -/
structure TermEnv where
  nativeSelect : Option Bool
  dropdownPresent : Bool
  liTexts : List String
  dropdownEllipsisTexts : List String
  promptPick : Option Nat
  textEleFound : Bool
  pageEllipsisTexts : List String

/-- The match predicate of main_updated.py line 1005 between the normalised
desired term and a normalised option text: equal, or either contains the
other. -/
def termMatch (dNorm n : String) : Bool :=
  n == dNorm || containsStr n dNorm || containsStr dNorm n

/-- The normalised matches of the desired term among the dropdown options. -/
def termMatchesOf (dNorm : String) (opts : List String) : List String :=
  opts.filter (fun t => termMatch dNorm (normTerm t))

/-- The interactive pick of main_updated.py lines 1015-1017 and 1029-1031:
a validated 1-based index selects from the listed texts. -/
def pickFrom (l : List String) (pick : Option Nat) : Option String :=
  match pick with
  | some k => if 1 ≤ k ∧ k ≤ l.length then l.get? (k - 1) else none
  | none => none

/-- Embedding of main_updated.py `_select_template_term`.  Control flow:
native `<select>` first; then the last popped-up dropdown, whose options are
the `li[role=option]` texts or, when there are none, its `div.text-ellipsis`
texts; exactly one normalised match is clicked automatically, several
matches or zero matches (with a non-empty option list) fall back to an
interactive pick (which also persists the choice to settings, a side effect
not modelled); whenever that fails the method continues with the
`text={desired}` locator and then a page-wide `div.text-ellipsis` search;
only after all of these fail does it return `False`.  The second component
is the text of the clicked option. -/
def selectTemplateTermU (env : TermEnv) (termText : String) : Bool × Option String :=
  let desired := pyStrip (if termText = "" then "Commission Tier Terms" else termText)
  let dNorm := normTerm desired
  match env.nativeSelect with
  | some true => (true, some desired)
  | _ =>
    let fallbacks : Bool × Option String :=
      if env.textEleFound then (true, some desired)
      else
        match env.pageEllipsisTexts.find? (fun t =>
          let txt := normTerm t
          txt == dNorm || containsStr txt dNorm) with
        | some t => (true, some t)
        | none => (false, none)
    if env.dropdownPresent then
      let opts := if env.liTexts.isEmpty then env.dropdownEllipsisTexts else env.liTexts
      match termMatchesOf dNorm opts with
      | [m] => (true, some m)
      | [] =>
        if opts.isEmpty then fallbacks
        else
          match pickFrom opts env.promptPick with
          | some t => (true, some t)
          | none => fallbacks
      | ms =>
        match pickFrom ms env.promptPick with
        | some t => (true, some t)
        | none => fallbacks
    else fallbacks

/-! ### `_handle_proposal_modal` (main.py lines 614-638 and
main_updated.py lines 874-899) -/

/-- The sub-steps of the modal workflow, in the order the source calls them. -/
inductive StepTag where
  | termT
  | tagT
  | dateT
  | commentT
  | submitT
deriving DecidableEq, Repr

/-- Result of the modal handler: it returns a boolean, or re-raises a
disconnect-classified exception (its own `except` swallows everything
else). -/
inductive ModalResult where
  | raisedDisconnect (msg : String)
  | returned (ok : Bool)
deriving DecidableEq, Repr

/-- Environment of one modal workflow.  `termOkV1` is the result of the
main.py `_select_template_term` (that revision drops it); `termEnv` drives
the main_updated.py term selection; `commentOk` and `submitOk` are the
results of `_input_comment` and `_submit_proposal` (both revisions ignore
them, and neither method lets an exception escape). -/
structure ModalEnv where
  iframeFound : Bool
  termOkV1 : Bool
  termEnv : TermEnv
  tagEnv : TagEnv
  dateEnv : DateEnv
  today : Date
  commentOk : Bool
  submitOk : Bool

/-- The steps after term selection, shared verbatim by both revisions:
category-tag entry only when a selected-tab text was derived (Python
truthiness, so an empty string also skips it); a tag exception aborts the
item (re-raised only when disconnect-classified); then date selection,
comment fill and submit, whose results are dropped. -/
def modalAfterTerm (env : ModalEnv) (selectedTab : Option String) :
    ModalResult × List StepTag :=
  if truthy selectedTab then
    match inputTagAndSelect env.tagEnv (selectedTab.getD "") with
    | .error msg =>
      if disconnMsg msg then (.raisedDisconnect msg, [StepTag.tagT])
      else (.returned false, [StepTag.tagT])
    | .ok _ =>
      let _ := selectTomorrowDate env.dateEnv env.today
      let _ := env.commentOk
      let _ := env.submitOk
      (.returned true, [StepTag.tagT, StepTag.dateT, StepTag.commentT, StepTag.submitT])
  else
    let _ := selectTomorrowDate env.dateEnv env.today
    let _ := env.commentOk
    let _ := env.submitOk
    (.returned true, [StepTag.dateT, StepTag.commentT, StepTag.submitT])

/-- Embedding of main.py `_handle_proposal_modal`: the result of
`_select_template_term` is ignored (line 622) and the workflow always
continues into the remaining steps. -/
def handleProposalModalV1 (env : ModalEnv) (selectedTab : Option String) :
    ModalResult × List StepTag :=
  if !env.iframeFound then (.returned false, [])
  else
    let _ := env.termOkV1
    let r := modalAfterTerm env selectedTab
    (r.1, StepTag.termT :: r.2)

/-- Embedding of main_updated.py `_handle_proposal_modal`: a `False` from
`_select_template_term` raises `template_term_not_found` (line 883), which
the handler's own `except` catches (the message is not
disconnect-classified), so the item is aborted with `False` before any later
step runs. -/
def handleProposalModalU (env : ModalEnv) (desiredTerm : String)
    (selectedTab : Option String) : ModalResult × List StepTag :=
  if !env.iframeFound then (.returned false, [])
  else
    let r := selectTemplateTermU env.termEnv desiredTerm
    if !r.1 then (.returned false, [StepTag.termT])
    else
      let r2 := modalAfterTerm env selectedTab
      (r2.1, StepTag.termT :: r2.2)

/-! ### Projections and measures used by the statements -/

/-- The events of one iteration result. -/
def evsOf : StepRes → List Event
  | .done _ evs => evs
  | .cont _ evs => evs

/-- The accumulator carried by a batch result. -/
def accOf : BatchRes → BatchAcc
  | .retNow b => b
  | .finished b => b

/-- Events that the loop body can emit (as opposed to the reconnect check). -/
def bodyEv : Event → Bool
  | .scrolled _ => true
  | .scrollFailed _ => true
  | .clickedBtn _ => true
  | .pendingReset _ => true
  | _ => false

/-- Whether an event is a successful click. -/
def isClickEv : Event → Bool
  | .clickedBtn _ => true
  | _ => false

/-- Number of successful clicks recorded in an event list. -/
def clickCount (evs : List Event) : Nat :=
  (evs.filter isClickEv).length

/-! ### Concrete environments used as counterexamples and witnesses -/

/-- A page with one permanently visible Send Proposal button whose click
always fails with a non-disconnect error. -/
def envSpin : LoopEnv :=
  { findRes := fun _ => .ok [(0, "Send Proposal")],
    markOk := fun _ => true,
    btnRes := fun _ => .clickFail,
    scrollOk := fun _ => true,
    reconOk := fun _ _ => true }

/-- A page that shows one Send Proposal button on the first scan (whose
click fails) and nothing afterwards. -/
def envReset : LoopEnv :=
  { findRes := fun n => if n = 0 then .ok [(0, "Send Proposal")] else .ok [],
    markOk := fun _ => true,
    btnRes := fun _ => .clickFail,
    scrollOk := fun _ => true,
    reconOk := fun _ _ => true }

/-- A page with one Send Proposal button whose click and modal both
succeed. -/
def envQuick : LoopEnv :=
  { findRes := fun _ => .ok [(0, "Send Proposal")],
    markOk := fun _ => true,
    btnRes := fun _ => .clicked false,
    scrollOk := fun _ => true,
    reconOk := fun _ _ => true }

/-- A page with one Send Proposal button whose click and modal succeed, used
for the run-completion notification scenario. -/
def envNotify : LoopEnv :=
  { findRes := fun _ => .ok [(0, "Send Proposal")],
    markOk := fun _ => true,
    btnRes := fun _ => .clicked false,
    scrollOk := fun _ => true,
    reconOk := fun _ _ => true }

/-- A page whose find call raises the template-term-not-found error of
main_updated.py line 883, which the outer handler of lines 836-837
re-raises out of `send_proposals`. -/
def envRaise : LoopEnv :=
  { findRes := fun _ => .errMsg "template_term_not_found",
    markOk := fun _ => true,
    btnRes := fun _ => .clickFail,
    scrollOk := fun _ => true,
    reconOk := fun _ _ => true }

/-- A marker store whose element 0 is already clicked. -/
def domClickedW : Nat → Marks :=
  fun i => if i = 0 then ⟨none, some "true"⟩ else Marks.fresh

/-- Term environment for the zero-match scenario: a dropdown whose only
option does not match the configured term, with the operator answering the
interactive prompt. -/
def termEnvPick : TermEnv :=
  { nativeSelect := none, dropdownPresent := true,
    liTexts := ["Ulanzi Terms (3)"], dropdownEllipsisTexts := [],
    promptPick := some 1, textEleFound := false, pageEllipsisTexts := [] }

/-- Term environment where the dropdown option does not match, the prompt is
cancelled, and every fallback locator fails. -/
def termEnvFail : TermEnv :=
  { nativeSelect := none, dropdownPresent := true,
    liTexts := ["Ulanzi Terms (3)"], dropdownEllipsisTexts := [],
    promptPick := none, textEleFound := false, pageEllipsisTexts := [] }

/-- Tag environment whose first suggestion matches a category of
"Home Audio". -/
def tagEnvMatch : TagEnv :=
  { tagInputPresent := true, dropdownPresent := true,
    optionDivText := some "Home Audio (23)", liTexts := [] }

/-- Tag environment whose first suggestion does not match a category of
"Home Audio". -/
def tagEnvMismatch : TagEnv :=
  { tagInputPresent := true, dropdownPresent := true,
    optionDivText := some "Home Video (23)", liTexts := [] }

/-- A date environment offering calendar cells 30, 31 and 1. -/
def dateEnvW : DateEnv :=
  { dateBtnPresent := true, cellTexts := ["30", " 31 ", "1"], textEleFound := false }

/-- A date environment whose date-input button is missing. -/
def dateEnvMissing : DateEnv :=
  { dateBtnPresent := false, cellTexts := [], textEleFound := false }

/-- Modal environment for the zero-match interactive-pick scenario. -/
def modalEnvPick : ModalEnv :=
  { iframeFound := true, termOkV1 := true, termEnv := termEnvPick,
    tagEnv := tagEnvMatch, dateEnv := dateEnvMissing,
    today := ⟨2026, 10, 12⟩, commentOk := true, submitOk := true }

/-- Modal environment with a failing term selection. -/
def modalEnvTermFail : ModalEnv :=
  { iframeFound := true, termOkV1 := false, termEnv := termEnvFail,
    tagEnv := tagEnvMatch, dateEnv := dateEnvMissing,
    today := ⟨2026, 10, 12⟩, commentOk := true, submitOk := true }

/-- Modal environment with a mismatching tag suggestion. -/
def modalEnvTagBad : ModalEnv :=
  { iframeFound := true, termOkV1 := true, termEnv := termEnvPick,
    tagEnv := tagEnvMismatch, dateEnv := dateEnvW,
    today := ⟨2026, 10, 12⟩, commentOk := true, submitOk := true }

/-- Modal environment whose date-input button is missing (date selection
fails) with no category tab. -/
def modalEnvNoDate : ModalEnv :=
  { iframeFound := true, termOkV1 := true, termEnv := termEnvPick,
    tagEnv := tagEnvMatch, dateEnv := dateEnvMissing,
    today := ⟨2026, 10, 12⟩, commentOk := true, submitOk := true }

/-- A loop state that has just hit the consecutive-error threshold. -/
def stErr3 : LoopState :=
  { initState with errors := 3 }

/-- Every scroll-related event in the list was issued with
`pending_batch_buttons = 0`. -/
def scrollZero (evs : List Event) : Prop :=
  ∀ p : Int, (Event.scrolled p ∈ evs ∨ Event.scrollFailed p ∈ evs) → p = 0

/-- A concrete batch accumulator with two pending buttons. -/
def batchW : BatchAcc :=
  { dom := fun _ => Marks.fresh, clickedCount := 0, pending := 2, errors := 0,
    nBtn := 0, nMark := 0, shouldScroll := false, events := [] }

/-- The states visited forever by the click-always-fails environment: no
scroll or click ever happens, the error counter stays 0, and the single
button stays counted but unclicked. -/
def SpinInv (s : LoopState) : Prop :=
  s.totalScrolls = 0 ∧ s.errors = 0 ∧ s.clickedCount = 0 ∧
    ((s.pending = 1 ∧ s.dom 0 = ⟨some "true", none⟩) ∨
      (s.pending = 0 ∧ s.dom 0 = Marks.fresh))

/-! ### Lemmas about marker writes -/

theorem MarkerState.rank_le_two (st : MarkerState) : st.rank ≤ 2 := by
  cases st <;> simp [MarkerState.rank]

theorem markWrite_counted_clicked (okb : Bool) (m : Marks) :
    ((markWrite okb m .countedA).1).clicked = m.clicked := by
  unfold markWrite
  split
  · rfl
  · split <;> rfl

theorem markWrite_rank_le (okb : Bool) (m : Marks) (a : AttrKind) :
    m.state.rank ≤ ((markWrite okb m a).1).state.rank := by
  unfold markWrite
  split
  · exact le_rfl
  · split
    · cases a
      · unfold Marks.set Marks.state
        by_cases hc : m.clicked = some "true" <;>
          by_cases hk : m.counted = some "true" <;>
          simp [hc, hk, MarkerState.rank]
      · unfold Marks.set Marks.state
        simp only [reduceIte]
        exact MarkerState.rank_le_two _
    · exact le_rfl

theorem markWrite_true_pres (okb : Bool) (m : Marks) (a a' : AttrKind)
    (h : m.get a' = some "true") : ((markWrite okb m a).1).get a' = some "true" := by
  unfold markWrite
  split
  · exact h
  · split
    · cases a <;> cases a' <;> simp_all [Marks.set, Marks.get]
    · exact h

/-! ### Lemmas about the scan -/

theorem scanGo_clicked_eq (mk : Nat → Bool) (ids : List Nat) :
    ∀ (acc : ScanAcc) (id : Nat),
      ((scanGo mk ids acc).dom id).clicked = (acc.dom id).clicked := by
  induction ids with
  | nil => intro acc id; rfl
  | cons a rest ih =>
    intro acc id
    simp only [scanGo]
    split
    · exact ih acc id
    · split
      · rw [ih]
        simp only [updDom]
        split
        · next h => rw [markWrite_counted_clicked, h]
        · rfl
      · exact ih { acc with available := acc.available ++ [a] } id

theorem scanGo_rank_le (mk : Nat → Bool) (ids : List Nat) :
    ∀ (acc : ScanAcc) (id : Nat),
      ((acc.dom id).state).rank ≤ (((scanGo mk ids acc).dom id).state).rank := by
  induction ids with
  | nil => intro acc id; exact le_rfl
  | cons a rest ih =>
    intro acc id
    simp only [scanGo]
    split
    · exact ih acc id
    · split
      · refine le_trans ?_ (ih _ id)
        simp only [updDom]
        split
        · next h => subst h; exact markWrite_rank_le _ _ _
        · exact le_rfl
      · exact ih { acc with available := acc.available ++ [a] } id

theorem scanGo_counted_pres (mk : Nat → Bool) (ids : List Nat) :
    ∀ (acc : ScanAcc) (id : Nat), (acc.dom id).counted = some "true" →
      ((scanGo mk ids acc).dom id).counted = some "true" := by
  induction ids with
  | nil => intro acc id h; exact h
  | cons a rest ih =>
    intro acc id h
    simp only [scanGo]
    split
    · exact ih acc id h
    · split
      · next hcnt =>
        refine ih _ id ?_
        simp only [updDom]
        split
        · next he => subst he; exact absurd h hcnt
        · exact h
      · exact ih { acc with available := acc.available ++ [a] } id h

theorem scanGo_excluded (mk : Nat → Bool) (ids : List Nat) :
    ∀ (acc : ScanAcc) (id : Nat), (acc.dom id).clicked = some "true" →
      id ∉ acc.available → id ∉ (scanGo mk ids acc).available := by
  induction ids with
  | nil => intro acc id h hn; exact hn
  | cons a rest ih =>
    intro acc id h hn
    simp only [scanGo]
    split
    · exact ih acc id h hn
    · next hcl =>
      have hne : a ≠ id := by
        intro he; subst he; exact hcl h
      split
      · refine ih _ id ?_ ?_
        · simp only [updDom]
          split
          · next he => exact absurd he.symm hne
          · exact h
        · simp only [List.mem_append, List.mem_singleton]
          rintro (hx | hx)
          · exact hn hx
          · exact hne hx.symm
      · refine ih { acc with available := acc.available ++ [a] } id h ?_
        simp only [List.mem_append, List.mem_singleton]
        rintro (hx | hx)
        · exact hn hx
        · exact hne hx.symm

theorem scanGo_available_chars (mk : Nat → Bool) (ids : List Nat) :
    ∀ (acc : ScanAcc),
      (scanGo mk ids acc).available =
        acc.available ++ ids.filter (fun id => !decide ((acc.dom id).clicked = some "true")) := by
  induction ids with
  | nil => intro acc; simp [scanGo]
  | cons a rest ih =>
    intro acc
    simp only [scanGo]
    split
    · next hcl =>
      rw [ih]
      simp [List.filter_cons, hcl]
    · next hcl =>
      split
      · rw [ih]
        have hfa : rest.filter
              (fun id => !decide (((updDom acc.dom a
                (markWrite (mk acc.nMark) (acc.dom a) .countedA).1) id).clicked = some "true")) =
            rest.filter (fun id => !decide ((acc.dom id).clicked = some "true")) := by
          refine List.filter_congr ?_
          intro x _
          simp only [updDom]
          split
          · next he => rw [markWrite_counted_clicked, he]
          · rfl
        rw [hfa]
        simp [List.filter_cons, hcl]
      · rw [ih { acc with available := acc.available ++ [a] }]
        simp [List.filter_cons, hcl]

theorem scanGo_marks_all (mk : Nat → Bool) (hmk : ∀ k, mk k = true) (ids : List Nat) :
    ∀ (acc : ScanAcc) (id : Nat), id ∈ ids →
      ((scanGo mk ids acc).dom id).clicked = some "true" ∨
        ((scanGo mk ids acc).dom id).counted = some "true" := by
  induction ids with
  | nil => intro acc id h; exact absurd h (List.not_mem_nil id)
  | cons a rest ih =>
    intro acc id hmem
    rcases List.mem_cons.mp hmem with he | hr
    · subst he
      simp only [scanGo]
      split
      · next hcl =>
        left
        rw [scanGo_clicked_eq]
        exact hcl
      · split
        · next hcnt =>
          right
          refine scanGo_counted_pres mk rest _ id ?_
          simp only [updDom, if_pos rfl]
          simp only [markWrite, Marks.get]
          rw [if_neg hcnt, if_pos (hmk acc.nMark)]
          simp [Marks.set]
        · next hcnt =>
          right
          refine scanGo_counted_pres mk rest
            { acc with available := acc.available ++ [id] } id ?_
          simpa using hcnt
    · simp only [scanGo]
      split
      · exact ih acc id hr
      · split
        · exact ih _ id hr
        · exact ih { acc with available := acc.available ++ [a] } id hr

theorem scanGo_no_writes (mk : Nat → Bool) (ids : List Nat) :
    ∀ (acc : ScanAcc),
      (∀ id ∈ ids, (acc.dom id).clicked = some "true" ∨ (acc.dom id).counted = some "true") →
      scanGo mk ids acc =
        { acc with available :=
            acc.available ++ ids.filter (fun id => !decide ((acc.dom id).clicked = some "true")) } := by
  induction ids with
  | nil => intro acc _; simp [scanGo]
  | cons a rest ih =>
    intro acc h
    simp only [scanGo]
    split
    · next hcl =>
      rw [ih acc (fun id hid => h id (List.mem_cons_of_mem a hid))]
      simp [List.filter_cons, hcl]
    · next hcl =>
      have hcnt : (acc.dom a).counted = some "true" := by
        rcases h a (List.mem_cons_self a rest) with hx | hx
        · exact absurd hx hcl
        · exact hx
      split
      · next hc2 => exact absurd hcnt hc2
      · rw [ih { acc with available := acc.available ++ [a] }
          (fun id hid => h id (List.mem_cons_of_mem a hid))]
        simp [List.filter_cons, hcl, List.append_assoc]

/-- Markers only go up across the click bookkeeping. -/
theorem clickUpdate_rank_le (env : LoopEnv) (a : Nat) (b : BatchAcc) (id : Nat) :
    ((b.dom id).state).rank ≤ (((clickUpdate env a b).dom id).state).rank := by
  simp only [clickUpdate, updDom]
  split
  · next he => subst he; exact markWrite_rank_le _ _ _
  · exact le_rfl

/-- C1 helper: the batch click loop only upgrades markers. -/
theorem batchGo_rank_le (env : LoopEnv) (mc : Nat) (ids : List Nat) :
    ∀ (b : BatchAcc) (id : Nat),
      ((b.dom id).state).rank ≤ (((accOf (batchGo env mc ids b)).dom id).state).rank := by
  induction ids with
  | nil => intro b id; exact le_rfl
  | cons a rest ih =>
    intro b id
    simp only [batchGo]
    split
    · exact le_rfl
    · split
      · exact ih { b with nBtn := b.nBtn + 1 } id
      · exact le_rfl
      · split
        · exact clickUpdate_rank_le env a b id
        · exact le_trans (clickUpdate_rank_le env a b id) (ih (clickUpdate env a b) id)

/-! ### Loop-level marker monotonicity -/

theorem doScroll_dom (env : LoopEnv) (s : LoopState) : ((doScroll env s).1).dom = s.dom := by
  unfold doScroll
  split <;> rfl

theorem scanMerge_rank_le (env : LoopEnv) (items : List (Nat × String))
    (s1 : LoopState) (id : Nat) :
    ((s1.dom id).state).rank ≤ (((scanMerge env items s1).dom id).state).rank :=
  scanGo_rank_le env.markOk (spIdsOf items)
    { dom := s1.dom, pending := s1.pending, totalDetected := s1.totalDetected,
      nMark := s1.nMark, available := [], newly := 0 } id

theorem emptyBranch_cont_dom (env : LoopEnv) (s2 : LoopState) (evs0 : List Event)
    (s' : LoopState) (evs : List Event) (h : emptyBranch env s2 evs0 = .cont s' evs) :
    s'.dom = s2.dom := by
  unfold emptyBranch at h
  split at h
  · cases h
    rw [doScroll_dom]
  · cases h
    rfl

theorem batchBranch_cont_rank (env : LoopEnv) (mc : Nat) (s3 : LoopState)
    (avail : List Nat) (evs0 : List Event) (s' : LoopState) (evs : List Event)
    (h : batchBranch env mc s3 avail evs0 = .cont s' evs) (id : Nat) :
    ((s3.dom id).state).rank ≤ ((s'.dom id).state).rank := by
  unfold batchBranch at h
  split at h
  · cases h
  · next b heq =>
    have hb : ((s3.dom id).state).rank ≤ ((b.dom id).state).rank := by
      have h2 := batchGo_rank_le env mc avail (batchInit s3) id
      rw [heq] at h2
      exact h2
    dsimp only at h
    split at h
    · cases h
    · split at h
      · cases h
        rw [doScroll_dom]
        exact hb
      · split at h
        · cases h
          exact hb
        · cases h
          rw [doScroll_dom]
          exact hb

theorem stepBody_rank_le (env : LoopEnv) (mc : Nat) (s0 : LoopState) (evs0 : List Event)
    (s' : LoopState) (evs : List Event) (h : stepBody env mc s0 evs0 = .cont s' evs)
    (id : Nat) : ((s0.dom id).state).rank ≤ ((s'.dom id).state).rank := by
  unfold stepBody at h
  split at h
  · cases h
    exact le_rfl
  · next items hfe =>
    dsimp only at h
    split at h
    · have hd := emptyBranch_cont_dom _ _ _ _ _ h
      rw [hd]
      exact scanMerge_rank_le env items { s0 with nFind := s0.nFind + 1 } id
    · have hb := batchBranch_cont_rank _ _ _ _ _ _ _ h id
      exact le_trans (scanMerge_rank_le env items { s0 with nFind := s0.nFind + 1 } id) hb

theorem step_rank_le (env : LoopEnv) (mc : Nat) (s s' : LoopState) (evs : List Event)
    (h : step env mc s = .cont s' evs) (id : Nat) :
    ((s.dom id).state).rank ≤ ((s'.dom id).state).rank := by
  unfold step at h
  split at h
  · exact absurd h (by simp)
  · split at h
    · dsimp only at h
      split at h
      · exact stepBody_rank_le env mc _ _ s' evs h id
      · exact absurd h (by simp)
    · exact stepBody_rank_le env mc _ _ s' evs h id

theorem iterState_rank_le (env : LoopEnv) (mc : Nat) :
    ∀ (n : Nat) (s s' : LoopState), iterState env mc n s = some s' →
      ∀ id, ((s.dom id).state).rank ≤ ((s'.dom id).state).rank := by
  intro n
  induction n with
  | zero =>
    intro s s' h id
    cases h
    exact le_rfl
  | succ n ih =>
    intro s s' h id
    unfold iterState at h
    split at h
    · cases h
    · next s1 evs hstep =>
      exact le_trans (step_rank_le env mc s s1 evs hstep id) (ih s1 s' h id)

/-- C1: marker state on a target element only ever advances along
unmarked → counted → clicked.  (1) A marker write never lowers the state;
(2) an attribute holding `"true"` is never removed by any write; (3) across
any number of `send_proposals` iterations, in any environment, every
element's marker state is monotonically non-decreasing; (4) an element whose
clicked marker equals `"true"` never appears in the eligible set
(`available_buttons`) produced by a scan. -/
theorem C1_marker_monotonicity :
    (∀ (okb : Bool) (m : Marks) (a : AttrKind),
        m.state.rank ≤ ((markWrite okb m a).1).state.rank) ∧
    (∀ (okb : Bool) (m : Marks) (a a' : AttrKind), m.get a' = some "true" →
        ((markWrite okb m a).1).get a' = some "true") ∧
    (∀ (env : LoopEnv) (mc n : Nat) (s s' : LoopState),
        iterState env mc n s = some s' →
        ∀ id, ((s.dom id).state).rank ≤ ((s'.dom id).state).rank) ∧
    (∀ (mk : Nat → Bool) (ids : List Nat) (dom : Nat → Marks) (p : Int) (t nm : Nat)
        (id : Nat), (dom id).clicked = some "true" →
        id ∉ (scanButtons mk ids dom p t nm).available) :=
  ⟨markWrite_rank_le, markWrite_true_pres,
   fun env mc n s s' h id => iterState_rank_le env mc n s s' h id,
   fun mk ids dom p t nm id h =>
     scanGo_excluded mk ids
       { dom := dom, pending := p, totalDetected := t, nMark := nm,
         available := [], newly := 0 } id h (List.not_mem_nil id)⟩

/-- C1 witness: element 0, already clicked, is excluded from the eligible
set of a scan over elements 0 and 1, while the unclicked element 1 stays. -/
theorem C1_witness :
    0 ∉ (scanButtons (fun _ => true) [0, 1] domClickedW 0 0 0).available ∧
    (scanButtons (fun _ => true) [0, 1] domClickedW 0 0 0).available = [1] :=
  ⟨C1_marker_monotonicity.2.2.2 (fun _ => true) [0, 1] domClickedW 0 0 0 0 (by decide),
   by decide⟩

/-- C2: scanning the same unchanged list of buttons twice in succession is
idempotent, provided the marker writes of the first scan took effect: after
the first scan every surviving button carries the counted marker, so the
second scan counts nothing (`newly_counted = 0`), leaves
`pending_batch_buttons` and `total_detected_buttons` unchanged, performs no
attribute write (`nMark` unchanged), and returns the same eligible set. -/
theorem C2_scan_idempotent (mk1 mk2 : Nat → Bool) (hmk1 : ∀ k, mk1 k = true)
    (ids : List Nat) (dom : Nat → Marks) (p : Int) (t nm : Nat) :
    let r1 := scanButtons mk1 ids dom p t nm
    let r2 := scanButtons mk2 ids r1.dom r1.pending r1.totalDetected r1.nMark
    r2.newly = 0 ∧ r2.pending = r1.pending ∧ r2.totalDetected = r1.totalDetected ∧
      r2.nMark = r1.nMark ∧ r2.available = r1.available ∧
      ∀ id ∈ r2.available, (r1.dom id).counted = some "true" := by
  intro r1 r2
  have hall : ∀ id ∈ ids, (r1.dom id).clicked = some "true" ∨
      (r1.dom id).counted = some "true" :=
    fun id hid => scanGo_marks_all mk1 hmk1 ids _ id hid
  have hnw := scanGo_no_writes mk2 ids
    { dom := r1.dom, pending := r1.pending, totalDetected := r1.totalDetected,
      nMark := r1.nMark, available := [], newly := 0 } hall
  have hr2 : r2 =
      { dom := r1.dom, pending := r1.pending, totalDetected := r1.totalDetected,
        nMark := r1.nMark,
        available :=
          [] ++ ids.filter (fun id => !decide ((r1.dom id).clicked = some "true")),
        newly := 0 } := hnw
  have hclick : ∀ id, (r1.dom id).clicked = (dom id).clicked :=
    fun id => scanGo_clicked_eq mk1 ids _ id
  have hav1 : r1.available =
      ids.filter (fun id => !decide ((dom id).clicked = some "true")) := by
    have := scanGo_available_chars mk1 ids
      { dom := dom, pending := p, totalDetected := t, nMark := nm,
        available := [], newly := 0 }
    simpa [scanButtons] using this
  have havail : r2.available = r1.available := by
    rw [hr2, hav1]
    simp only [List.nil_append]
    refine List.filter_congr ?_
    intro x _
    rw [hclick]
  refine ⟨by rw [hr2], by rw [hr2], by rw [hr2], by rw [hr2], havail, ?_⟩
  intro id hid
  rw [havail, hav1] at hid
  have hmem := List.of_mem_filter hid
  have hin := List.mem_of_mem_filter hid
  rcases hall id hin with hc | hc
  · rw [hclick] at hc
    simp [hc] at hmem
  · exact hc

/-- C2 witness: scanning elements 5, 5, 7 (element 5 listed twice) twice
from a fresh store: the first scan counts two elements, the second counts
none and changes nothing. -/
theorem C2_witness :
    (scanButtons (fun _ => false) [5, 5, 7]
        (scanButtons (fun _ => true) [5, 5, 7] (fun _ => Marks.fresh) 2 1 0).dom
        (scanButtons (fun _ => true) [5, 5, 7] (fun _ => Marks.fresh) 2 1 0).pending
        (scanButtons (fun _ => true) [5, 5, 7] (fun _ => Marks.fresh) 2 1 0).totalDetected
        (scanButtons (fun _ => true) [5, 5, 7] (fun _ => Marks.fresh) 2 1 0).nMark).newly = 0 ∧
    (scanButtons (fun _ => true) [5, 5, 7] (fun _ => Marks.fresh) 2 1 0).pending = 4 :=
  ⟨(C2_scan_idempotent (fun _ => true) (fun _ => false) (fun _ => rfl)
      [5, 5, 7] (fun _ => Marks.fresh) 2 1 0).1,
   by decide⟩

/-! ### Event bookkeeping of one loop iteration -/

theorem isClickEv_bodyEv (e : Event) (h : isClickEv e = true) : bodyEv e = true := by
  cases e <;> simp_all [isClickEv, bodyEv]

theorem doScroll_ev (env : LoopEnv) (s : LoopState) : bodyEv (doScroll env s).2 = true := by
  unfold doScroll
  split <;> rfl

theorem batchGo_events (env : LoopEnv) (mc : Nat) :
    ∀ (ids : List Nat) (b : BatchAcc), ∃ tail,
      (accOf (batchGo env mc ids b)).events = b.events ++ tail ∧
        ∀ e ∈ tail, isClickEv e = true := by
  intro ids
  induction ids with
  | nil =>
    intro b
    exact ⟨[], by simp [batchGo, accOf], by simp⟩
  | cons a rest ih =>
    intro b
    simp only [batchGo]
    split
    · exact ⟨[], by simp [accOf], by simp⟩
    · split
      · exact ih { b with nBtn := b.nBtn + 1 }
      · exact ⟨[], by simp [accOf], by simp⟩
      · split
        · refine ⟨[Event.clickedBtn a], by simp [accOf, clickUpdate], ?_⟩
          intro e he
          simp only [List.mem_singleton] at he
          subst he
          rfl
        · obtain ⟨tail, heq, hall⟩ := ih (clickUpdate env a b)
          refine ⟨Event.clickedBtn a :: tail, ?_, ?_⟩
          · rw [heq]
            simp [clickUpdate]
          · intro e he
            rcases List.mem_cons.mp he with he | he
            · subst he; rfl
            · exact hall e he

theorem emptyBranch_events (env : LoopEnv) (s2 : LoopState) (evs0 : List Event) :
    ∃ tail, evsOf (emptyBranch env s2 evs0) = evs0 ++ tail ∧
      ∀ e ∈ tail, bodyEv e = true := by
  unfold emptyBranch
  split
  · exact ⟨[(doScroll env s2).2], rfl, by
      intro e he
      simp only [List.mem_singleton] at he
      subst he
      exact doScroll_ev env s2⟩
  · exact ⟨[Event.pendingReset s2.pending], rfl, by
      intro e he
      simp only [List.mem_singleton] at he
      subst he
      rfl⟩

theorem batchBranch_events (env : LoopEnv) (mc : Nat) (s3 : LoopState)
    (avail : List Nat) (evs0 : List Event) :
    ∃ tail, evsOf (batchBranch env mc s3 avail evs0) = evs0 ++ tail ∧
      ∀ e ∈ tail, bodyEv e = true := by
  obtain ⟨tail, heq, hall⟩ := batchGo_events env mc avail (batchInit s3)
  have hbinit : (batchInit s3).events = [] := rfl
  rw [hbinit] at heq
  simp only [List.nil_append] at heq
  unfold batchBranch
  split
  · next b hb =>
    rw [hb] at heq
    refine ⟨b.events, rfl, ?_⟩
    intro e he
    rw [show b.events = tail from heq] at he
    exact isClickEv_bodyEv e (hall e he)
  · next b hb =>
    rw [hb] at heq
    have hbev : ∀ e ∈ b.events, bodyEv e = true := by
      intro e he
      rw [show b.events = tail from heq] at he
      exact isClickEv_bodyEv e (hall e he)
    dsimp only
    split
    · exact ⟨b.events, rfl, hbev⟩
    · split
      · refine ⟨b.events ++ [(doScroll env (batchMerge s3 b)).2], by simp [evsOf], ?_⟩
        intro e he
        rcases List.mem_append.mp he with he | he
        · exact hbev e he
        · simp only [List.mem_singleton] at he
          subst he
          exact doScroll_ev _ _
      · split
        · exact ⟨b.events, rfl, hbev⟩
        · refine ⟨b.events ++ [(doScroll env (batchMerge s3 b)).2], by simp [evsOf], ?_⟩
          intro e he
          rcases List.mem_append.mp he with he | he
          · exact hbev e he
          · simp only [List.mem_singleton] at he
            subst he
            exact doScroll_ev _ _

theorem stepBody_events (env : LoopEnv) (mc : Nat) (s0 : LoopState) (evs0 : List Event) :
    ∃ tail, evsOf (stepBody env mc s0 evs0) = evs0 ++ tail ∧
      ∀ e ∈ tail, bodyEv e = true := by
  unfold stepBody
  split
  · exact ⟨[], by simp [evsOf], by simp⟩
  · dsimp only
    split
    · exact emptyBranch_events env _ evs0
    · exact batchBranch_events env mc _ _ evs0

/-- The reconnect check is the only source of `reconAttempted` events: one
iteration either starts with it (exactly when the loop is live and
`consecutive_errors ≥ 3`) or emits loop-body events only. -/
theorem step_events (env : LoopEnv) (mc : Nat) (s : LoopState) :
    (s.totalScrolls < 100 ∧ 3 ≤ s.errors ∧ ∃ tail,
        evsOf (step env mc s) =
          Event.reconAttempted (reconnectFn (env.reconOk s.nRecon)).1
            (reconnectFn (env.reconOk s.nRecon)).2 :: tail ∧
        ∀ e ∈ tail, bodyEv e = true) ∨
    ((100 ≤ s.totalScrolls ∨ s.errors < 3) ∧
        ∀ e ∈ evsOf (step env mc s), bodyEv e = true) := by
  unfold step
  split
  · next hts =>
    right
    exact ⟨Or.inl hts, by simp [evsOf]⟩
  · next hts =>
    split
    · next herr =>
      left
      refine ⟨by omega, herr, ?_⟩
      dsimp only
      split
      · next hrec =>
        obtain ⟨tail, heq, hall⟩ := stepBody_events env mc
          { s with errors := 0, nRecon := s.nRecon + 1 }
          [Event.reconAttempted true (reconnectFn (env.reconOk s.nRecon)).2]
        refine ⟨tail, ?_, hall⟩
        rw [heq, hrec]
        rfl
      · next hrec =>
        refine ⟨[], ?_, by simp⟩
        simp only [evsOf]
        rw [show (reconnectFn (env.reconOk s.nRecon)).1 = false from by
          cases hx : (reconnectFn (env.reconOk s.nRecon)).1
          · rfl
          · exact absurd hx hrec]
    · next herr =>
      right
      refine ⟨Or.inr (by omega), ?_⟩
      obtain ⟨tail, heq, hall⟩ := stepBody_events env mc s []
      rw [heq]
      simpa using hall

/-! ### Reconnect policy (C5) and find_elements totality (C10) -/

theorem reconnectFn_eq (ok : Nat → Bool) :
    reconnectFn ok =
      if ok 0 then (true, 1)
      else if ok 1 then (true, 2)
      else if ok 2 then (true, 3)
      else (false, 3) := by
  have step0 : reconnectFn ok = if ok 0 then (true, 1) else reconnectAux ok 2 1 := rfl
  have step1 : reconnectAux ok 2 1 = if ok 1 then (true, 2) else reconnectAux ok 1 2 := rfl
  have step2 : reconnectAux ok 1 2 = if ok 2 then (true, 3) else reconnectAux ok 0 3 := rfl
  have step3 : reconnectAux ok 0 3 = (false, 3) := rfl
  rw [step0, step1, step2, step3]

theorem reconnectFn_attempts_le (ok : Nat → Bool) : (reconnectFn ok).2 ≤ 3 := by
  rw [reconnectFn_eq]
  by_cases h0 : ok 0 <;> by_cases h1 : ok 1 <;> by_cases h2 : ok 2 <;>
    simp [h0, h1, h2]

theorem reconnectFn_success_iff (ok : Nat → Bool) :
    (reconnectFn ok).1 = true ↔ ∃ i < 3, ok i = true := by
  rw [reconnectFn_eq]
  by_cases h0 : ok 0
  · simp only [h0, if_pos]
    simp only [true_iff]
    exact ⟨0, by omega, h0⟩
  · by_cases h1 : ok 1
    · simp only [h0, h1, Bool.false_eq_true, reduceIte, if_pos]
      simp only [true_iff]
      exact ⟨1, by omega, h1⟩
    · by_cases h2 : ok 2
      · simp only [h0, h1, h2, Bool.false_eq_true, reduceIte, if_pos]
        simp only [true_iff]
        exact ⟨2, by omega, h2⟩
      · simp only [h0, h1, h2, Bool.false_eq_true, reduceIte]
        constructor
        · intro h; cases h
        · rintro ⟨i, hi, hoi⟩
          interval_cases i
          · exact absurd hoi h0
          · exact absurd hoi h1
          · exact absurd hoi h2

theorem reconnectFn_fail_attempts (ok : Nat → Bool)
    (h : (reconnectFn ok).1 = false) : (reconnectFn ok).2 = 3 := by
  rw [reconnectFn_eq] at h ⊢
  by_cases h0 : ok 0 <;> by_cases h1 : ok 1 <;> by_cases h2 : ok 2 <;>
    simp_all

theorem step_no_buttonsNone (env : LoopEnv) (mc : Nat) (s : LoopState) :
    Event.buttonsNoneBranch ∉ evsOf (step env mc s) := by
  rcases step_events env mc s with ⟨_, _, tail, heq, hall⟩ | ⟨_, hall⟩
  · rw [heq]
    intro hmem
    rcases List.mem_cons.mp hmem with he | he
    · cases he
    · have := hall _ he
      simp [bodyEv] at this
  · intro hmem
    have := hall _ hmem
    simp [bodyEv] at this

theorem runLoop_no_buttonsNone (env : LoopEnv) (mc : Nat) :
    ∀ (n : Nat) (s : LoopState), Event.buttonsNoneBranch ∉ (runLoop env mc n s).1 := by
  intro n
  induction n with
  | zero => intro s; simp [runLoop]
  | succ n ih =>
    intro s
    unfold runLoop
    cases hstep : step env mc s with
    | done c evs =>
      have := step_no_buttonsNone env mc s
      rw [hstep] at this
      simpa [evsOf] using this
    | cont s1 evs =>
      have h1 := step_no_buttonsNone env mc s
      rw [hstep] at h1
      simp only [evsOf] at h1
      simp only [List.mem_append]
      rintro (hx | hx)
      · exact h1 hx
      · exact ih s1 hx

/-- C10: `BrowserManager.find_elements` always returns a list and never
`None`: a successful query returns its list; typed not-found/disconnect
exceptions and message-classified disconnect exceptions become the empty
list; every other outcome is a re-raised non-disconnect exception.
Consequently the `buttons is None` reconnect branch of `send_proposals`
(main.py lines 447-452) is unreachable: no run ever emits its event. -/
theorem C10_find_elements_total :
    (∀ items, findElements (.ok items) = .ok items) ∧
    (∀ msg, findElements (.errTyped msg) = .ok []) ∧
    (∀ msg, disconnMsg msg = true → findElements (.errMsg msg) = .ok []) ∧
    (∀ r, (∃ l, findElements r = .ok l) ∨
        (∃ msg, findElements r = .error msg ∧ disconnMsg msg = false)) ∧
    (∀ (env : LoopEnv) (mc n : Nat) (s : LoopState),
        Event.buttonsNoneBranch ∉ (runLoop env mc n s).1) := by
  refine ⟨fun items => rfl, fun msg => rfl, ?_, ?_, ?_⟩
  · intro msg h
    simp [findElements, h]
  · intro r
    cases r with
    | ok items => exact Or.inl ⟨items, rfl⟩
    | errTyped msg => exact Or.inl ⟨[], rfl⟩
    | errMsg msg =>
      cases hd : disconnMsg msg
      · exact Or.inr ⟨msg, by simp [findElements, hd], hd⟩
      · exact Or.inl ⟨[], by simp [findElements, hd]⟩
  · exact fun env mc n s => runLoop_no_buttonsNone env mc n s

/-- C10 witness: a disconnect-classified failure yields the empty list, and
a concrete three-iteration run never takes the None branch. -/
theorem C10_witness :
    findElements (.errMsg "Page disconnected") = .ok [] ∧
    Event.buttonsNoneBranch ∉ (runLoop envQuick 1 3 initState).1 :=
  ⟨C10_find_elements_total.2.2.1 "Page disconnected" (by decide),
   C10_find_elements_total.2.2.2.2 envQuick 1 3 initState⟩

/-- C5: the reconnect policy.  `BrowserManager.reconnect` makes at most 3
attempts, succeeds exactly when one of its first 3 attempts succeeds, and
exhausts all 3 attempts on failure.  In `send_proposals`, a reconnect is
attempted in an iteration exactly when the loop is live and
`consecutive_errors ≥ max_consecutive_errors = 3`; on success the iteration
continues as the loop body with `consecutive_errors` reset to 0; on failure
the run immediately returns and performs nothing further. -/
theorem C5_reconnect_policy :
    (∀ ok : Nat → Bool, (reconnectFn ok).2 ≤ 3) ∧
    (∀ ok : Nat → Bool, ((reconnectFn ok).1 = true ↔ ∃ i < 3, ok i = true)) ∧
    (∀ ok : Nat → Bool, (reconnectFn ok).1 = false → (reconnectFn ok).2 = 3) ∧
    (∀ (env : LoopEnv) (mc : Nat) (s : LoopState),
        ((∃ okb att, Event.reconAttempted okb att ∈ evsOf (step env mc s)) ↔
          (s.totalScrolls < 100 ∧ 3 ≤ s.errors))) ∧
    (∀ (env : LoopEnv) (mc : Nat) (s : LoopState),
        s.totalScrolls < 100 → 3 ≤ s.errors →
        (reconnectFn (env.reconOk s.nRecon)).1 = true →
        step env mc s =
          stepBody env mc { s with errors := 0, nRecon := s.nRecon + 1 }
            [Event.reconAttempted true (reconnectFn (env.reconOk s.nRecon)).2]) ∧
    (∀ (env : LoopEnv) (mc : Nat) (s : LoopState),
        s.totalScrolls < 100 → 3 ≤ s.errors →
        (reconnectFn (env.reconOk s.nRecon)).1 = false →
        ∀ n, 1 ≤ n → runLoop env mc n s =
          ([Event.reconAttempted false (reconnectFn (env.reconOk s.nRecon)).2],
            some s.clickedCount)) := by
  have hstepEq : ∀ (env : LoopEnv) (mc : Nat) (s : LoopState),
      s.totalScrolls < 100 → 3 ≤ s.errors →
      (reconnectFn (env.reconOk s.nRecon)).1 = true →
      step env mc s =
        stepBody env mc { s with errors := 0, nRecon := s.nRecon + 1 }
          [Event.reconAttempted true (reconnectFn (env.reconOk s.nRecon)).2] := by
    intro env mc s hts herr hrec
    unfold step
    rw [if_neg (by omega), if_pos (by omega)]
    dsimp only
    rw [hrec]
    simp
  have hstepFail : ∀ (env : LoopEnv) (mc : Nat) (s : LoopState),
      s.totalScrolls < 100 → 3 ≤ s.errors →
      (reconnectFn (env.reconOk s.nRecon)).1 = false →
      step env mc s = .done s.clickedCount
        [Event.reconAttempted false (reconnectFn (env.reconOk s.nRecon)).2] := by
    intro env mc s hts herr hrec
    unfold step
    rw [if_neg (by omega), if_pos (by omega)]
    dsimp only
    rw [hrec]
    simp
  refine ⟨reconnectFn_attempts_le, reconnectFn_success_iff, reconnectFn_fail_attempts,
    ?_, hstepEq, ?_⟩
  · intro env mc s
    constructor
    · rintro ⟨okb, att, hmem⟩
      rcases step_events env mc s with ⟨hts, herr, _, _, _⟩ | ⟨_, hall⟩
      · exact ⟨hts, herr⟩
      · have := hall _ hmem
        simp [bodyEv] at this
    · rintro ⟨hts, herr⟩
      cases hrec : (reconnectFn (env.reconOk s.nRecon)).1
      · rw [hstepFail env mc s hts herr hrec]
        exact ⟨false, (reconnectFn (env.reconOk s.nRecon)).2, by simp [evsOf]⟩
      · rw [hstepEq env mc s hts herr hrec]
        obtain ⟨tail, heq, _⟩ := stepBody_events env mc
          { s with errors := 0, nRecon := s.nRecon + 1 }
          [Event.reconAttempted true (reconnectFn (env.reconOk s.nRecon)).2]
        rw [heq]
        exact ⟨true, (reconnectFn (env.reconOk s.nRecon)).2, by simp⟩
  · intro env mc s hts herr hrec n hn
    cases n with
    | zero => omega
    | succ n =>
      unfold runLoop
      rw [hstepFail env mc s hts herr hrec]

/-- C5 witness: with every reconnect attempt succeeding and
`consecutive_errors = 3`, the iteration performs the reconnect and then runs
the loop body with the error counter reset to 0. -/
theorem C5_witness :
    step envSpin 10 stErr3 =
      stepBody envSpin 10 { stErr3 with errors := 0, nRecon := stErr3.nRecon + 1 }
        [Event.reconAttempted true (reconnectFn (envSpin.reconOk stErr3.nRecon)).2] ∧
    (reconnectFn (fun i => decide (i = 1))).1 = true :=
  ⟨C5_reconnect_policy.2.2.2.2.1 envSpin 10 stErr3 (by decide) (by decide) (by decide),
   (C5_reconnect_policy.2.1 (fun i => decide (i = 1))).mpr ⟨1, by omega, by decide⟩⟩

/-! ### Pending-count invariants (C3) -/

theorem clickCount_nil : clickCount [] = 0 := rfl

theorem clickCount_cons_click (a : Nat) (l : List Event) :
    clickCount (Event.clickedBtn a :: l) = clickCount l + 1 := by
  simp [clickCount, isClickEv]

theorem max_sub_shift (a : Int) (k : Nat) :
    max (max (a - 1) 0 - (k : Int)) 0 = max (a - (1 + (k : Int))) 0 := by
  rcases le_total (a - 1) 0 with h | h
  · rw [max_eq_right h]
    have h1 : a - (1 + (k : Int)) ≤ 0 := by omega
    rw [max_eq_right h1]
    have h2 : (0 : Int) - (k : Int) ≤ 0 := by omega
    rw [max_eq_right h2]
  · rw [max_eq_left h]
    have : a - 1 - (k : Int) = a - (1 + (k : Int)) := by ring
    rw [this]

theorem clickUpdate_pending (env : LoopEnv) (a : Nat) (b : BatchAcc)
    (hb : 0 ≤ b.pending) : (clickUpdate env a b).pending = max (b.pending - 1) 0 := by
  simp only [clickUpdate]
  split
  · rfl
  · next hnp =>
    have hz : b.pending = 0 := by omega
    simp [hz]

theorem clickUpdate_flag_iff (env : LoopEnv) (a : Nat) (b : BatchAcc) :
    ((clickUpdate env a b).shouldScroll = true) ↔
      ((clickUpdate env a b).pending = 0 ∨ b.shouldScroll = true) := by
  simp only [clickUpdate]
  by_cases hz : (if b.pending > 0 then max (b.pending - 1) 0 else b.pending) = 0
  · simp [hz]
  · simp [hz]

theorem clickUpdate_events (env : LoopEnv) (a : Nat) (b : BatchAcc) :
    (clickUpdate env a b).events = b.events ++ [Event.clickedBtn a] := rfl

/-- Full behaviour of the batch click loop on the pending count: its events
extend the input events by click events only, the resulting pending count is
the input minus one per click with floor 0, and the scroll flag is only set
while the pending count is 0. -/
theorem batchGo_spec (env : LoopEnv) (mc : Nat) :
    ∀ (ids : List Nat) (b : BatchAcc), 0 ≤ b.pending →
      ∃ tail,
        (accOf (batchGo env mc ids b)).events = b.events ++ tail ∧
        (∀ e ∈ tail, isClickEv e = true) ∧
        (accOf (batchGo env mc ids b)).pending =
          max (b.pending - (clickCount tail : Int)) 0 ∧
        ((b.shouldScroll = true → b.pending = 0) →
          (accOf (batchGo env mc ids b)).shouldScroll = true →
            (accOf (batchGo env mc ids b)).pending = 0) := by
  intro ids
  induction ids with
  | nil =>
    intro b hb
    refine ⟨[], by simp [batchGo, accOf], by simp, ?_, ?_⟩
    · simp only [batchGo, accOf, clickCount_nil, Nat.cast_zero, sub_zero]
      exact (max_eq_left hb).symm
    · intro hflag hsc
      simp only [batchGo, accOf] at hsc ⊢
      exact hflag hsc
  | cons a rest ih =>
    intro b hb
    simp only [batchGo]
    split
    · refine ⟨[], by simp [accOf], by simp, ?_, ?_⟩
      · simp only [accOf, clickCount_nil, Nat.cast_zero, sub_zero]
        exact (max_eq_left hb).symm
      · intro hflag hsc
        simp only [accOf] at hsc ⊢
        exact hflag hsc
    · split
      · exact ih { b with nBtn := b.nBtn + 1 } hb
      · refine ⟨[], by simp [accOf], by simp, ?_, ?_⟩
        · simp only [accOf, clickCount_nil, Nat.cast_zero, sub_zero]
          exact (max_eq_left hb).symm
        · intro hflag hsc
          simp only [accOf] at hsc ⊢
          exact hflag hsc
      · have hp1 := clickUpdate_pending env a b hb
        have hflag1 : (clickUpdate env a b).shouldScroll = true →
            (b.shouldScroll = true → b.pending = 0) →
            (clickUpdate env a b).pending = 0 := by
          intro hsc hflag
          rcases (clickUpdate_flag_iff env a b).mp hsc with hz | hz
          · exact hz
          · rw [hp1, hflag hz]
            simp
        split
        · -- modal raised a disconnect: break with this click recorded
          refine ⟨[Event.clickedBtn a], ?_, ?_, ?_, ?_⟩
          · simp only [accOf]
            exact clickUpdate_events env a b
          · intro e he
            simp only [List.mem_singleton] at he
            subst he
            rfl
          · simp only [accOf]
            rw [hp1]
            have hc1 : (clickCount [Event.clickedBtn a] : Int) = 1 := by
              simp [clickCount, isClickEv]
            rw [hc1]
          · intro hflag hsc
            simp only [accOf] at hsc ⊢
            exact hflag1 hsc hflag
        · obtain ⟨tail, heq, hclk, hpend, hflag⟩ :=
            ih (clickUpdate env a b) (by rw [hp1]; exact le_max_right _ _)
          refine ⟨Event.clickedBtn a :: tail, ?_, ?_, ?_, ?_⟩
          · rw [heq, clickUpdate_events]
            simp
          · intro e he
            rcases List.mem_cons.mp he with he | he
            · subst he; rfl
            · exact hclk e he
          · rw [hpend, hp1, clickCount_cons_click]
            have hcast : ((clickCount tail + 1 : Nat) : Int) = 1 + (clickCount tail : Int) := by
              push_cast
              ring
            rw [hcast]
            exact max_sub_shift b.pending (clickCount tail)
          · intro hfl hsc
            refine hflag ?_ hsc
            intro hsc1
            exact hflag1 hsc1 hfl

theorem scanGo_pending_le (mk : Nat → Bool) (ids : List Nat) :
    ∀ (acc : ScanAcc), acc.pending ≤ (scanGo mk ids acc).pending := by
  induction ids with
  | nil => intro acc; exact le_rfl
  | cons a rest ih =>
    intro acc
    simp only [scanGo]
    split
    · exact ih acc
    · split
      · refine le_trans ?_ (ih _)
        dsimp only
        split <;> omega
      · exact ih { acc with available := acc.available ++ [a] }

theorem scrollZero_nil : scrollZero [] := by
  intro p hp
  rcases hp with h | h <;> cases h

theorem scrollZero_append (l1 l2 : List Event) (h1 : scrollZero l1)
    (h2 : scrollZero l2) : scrollZero (l1 ++ l2) := by
  intro p hp
  rcases hp with h | h <;> rcases List.mem_append.mp h with h | h
  · exact h1 p (Or.inl h)
  · exact h2 p (Or.inl h)
  · exact h1 p (Or.inr h)
  · exact h2 p (Or.inr h)

theorem scrollZero_clicks (l : List Event) (h : ∀ e ∈ l, isClickEv e = true) :
    scrollZero l := by
  intro p hp
  rcases hp with hm | hm
  · have := h _ hm
    simp [isClickEv] at this
  · have := h _ hm
    simp [isClickEv] at this

theorem scrollZero_doScroll (env : LoopEnv) (s : LoopState) (h : s.pending = 0) :
    scrollZero [(doScroll env s).2] := by
  intro p hp
  unfold doScroll at hp
  split at hp <;>
    rcases hp with hm | hm <;>
      simp only [List.mem_singleton] at hm <;>
        first
          | (cases hm; exact h)
          | (cases hm)

theorem emptyBranch_scrollZero (env : LoopEnv) (s2 : LoopState) (evs0 : List Event)
    (h0 : scrollZero evs0) (hp : 0 ≤ s2.pending) :
    scrollZero (evsOf (emptyBranch env s2 evs0)) := by
  unfold emptyBranch
  split
  · next hle =>
    have hz : s2.pending = 0 := by omega
    exact scrollZero_append _ _ h0 (scrollZero_doScroll env s2 hz)
  · refine scrollZero_append _ _ h0 ?_
    intro p hp2
    rcases hp2 with hm | hm <;> simp only [List.mem_singleton] at hm <;> cases hm

theorem batchBranch_scrollZero (env : LoopEnv) (mc : Nat) (s3 : LoopState)
    (avail : List Nat) (evs0 : List Event) (h0 : scrollZero evs0)
    (hp : 0 ≤ s3.pending) :
    scrollZero (evsOf (batchBranch env mc s3 avail evs0)) := by
  obtain ⟨tail, heq, hclk, hpend, hflag⟩ := batchGo_spec env mc avail (batchInit s3) hp
  have hbinitev : (batchInit s3).events = [] := rfl
  rw [hbinitev, List.nil_append] at heq
  have hbinitfl : (batchInit s3).shouldScroll = false := rfl
  unfold batchBranch
  split
  · next b hb =>
    rw [hb] at heq
    refine scrollZero_append _ _ h0 ?_
    refine scrollZero_clicks _ ?_
    intro e he
    exact hclk e (by rw [← heq]; exact he)
  · next b hb =>
    rw [hb] at heq hpend hflag
    simp only [accOf] at heq hpend hflag
    have hbev : scrollZero b.events := by
      refine scrollZero_clicks _ ?_
      intro e he
      exact hclk e (by rw [← heq]; exact he)
    have hbp : 0 ≤ b.pending := by
      rw [hpend]
      exact le_max_right _ _
    dsimp only
    split
    · exact scrollZero_append _ _ h0 hbev
    · split
      · next hsc =>
        have hz : b.pending = 0 := by
          refine hflag ?_ hsc
          intro hx
          rw [hbinitfl] at hx
          cases hx
        simp only [evsOf]
        refine scrollZero_append _ _ (scrollZero_append _ _ h0 hbev) ?_
        exact scrollZero_doScroll env (batchMerge s3 b) hz
      · split
        · exact scrollZero_append _ _ h0 hbev
        · next hng =>
          have hz : b.pending = 0 := by
            have hmp : (batchMerge s3 b).pending = b.pending := rfl
            omega
          simp only [evsOf]
          refine scrollZero_append _ _ (scrollZero_append _ _ h0 hbev) ?_
          exact scrollZero_doScroll env (batchMerge s3 b) hz

theorem stepBody_scrollZero (env : LoopEnv) (mc : Nat) (s0 : LoopState)
    (evs0 : List Event) (h0 : scrollZero evs0) (hp : 0 ≤ s0.pending) :
    scrollZero (evsOf (stepBody env mc s0 evs0)) := by
  unfold stepBody
  split
  · exact h0
  · next items hfe =>
    dsimp only
    have hps : 0 ≤ (scanMerge env items { s0 with nFind := s0.nFind + 1 }).pending := by
      refine le_trans hp ?_
      exact scanGo_pending_le env.markOk (spIdsOf items) _
    split
    · exact emptyBranch_scrollZero env _ evs0 h0 hps
    · exact batchBranch_scrollZero env mc _ _ evs0 h0 hps

theorem step_scrollZero (env : LoopEnv) (mc : Nat) (s : LoopState)
    (hp : 0 ≤ s.pending) : scrollZero (evsOf (step env mc s)) := by
  unfold step
  split
  · exact scrollZero_nil
  · split
    · dsimp only
      split
      · refine stepBody_scrollZero env mc _ _ ?_ hp
        intro p hp2
        rcases hp2 with hm | hm <;> simp only [List.mem_singleton] at hm <;> cases hm
      · intro p hp2
        rcases hp2 with hm | hm <;> simp only [evsOf, List.mem_singleton] at hm <;> cases hm
    · refine stepBody_scrollZero env mc _ _ scrollZero_nil hp

theorem emptyBranch_cont_pending (env : LoopEnv) (s2 : LoopState) (evs0 : List Event)
    (s' : LoopState) (evs : List Event) (h : emptyBranch env s2 evs0 = .cont s' evs)
    (hp : 0 ≤ s2.pending) : 0 ≤ s'.pending := by
  unfold emptyBranch at h
  split at h
  · cases h
    unfold doScroll
    split <;> exact hp
  · cases h
    simp

theorem batchBranch_cont_pending (env : LoopEnv) (mc : Nat) (s3 : LoopState)
    (avail : List Nat) (evs0 : List Event) (s' : LoopState) (evs : List Event)
    (h : batchBranch env mc s3 avail evs0 = .cont s' evs) (hp : 0 ≤ s3.pending) :
    0 ≤ s'.pending := by
  obtain ⟨tail, _, _, hpend, _⟩ := batchGo_spec env mc avail (batchInit s3) hp
  unfold batchBranch at h
  split at h
  · cases h
  · next b hb =>
    rw [hb] at hpend
    simp only [accOf] at hpend
    have hbp : 0 ≤ b.pending := by
      rw [hpend]
      exact le_max_right _ _
    dsimp only at h
    split at h
    · cases h
    · split at h
      · cases h
        unfold doScroll
        split <;> exact hbp
      · split at h
        · cases h
          exact hbp
        · cases h
          unfold doScroll
          split <;> exact hbp

theorem stepBody_cont_pending (env : LoopEnv) (mc : Nat) (s0 : LoopState)
    (evs0 : List Event) (s' : LoopState) (evs : List Event)
    (h : stepBody env mc s0 evs0 = .cont s' evs) (hp : 0 ≤ s0.pending) :
    0 ≤ s'.pending := by
  unfold stepBody at h
  split at h
  · cases h
    exact hp
  · next items hfe =>
    dsimp only at h
    have hps : 0 ≤ (scanMerge env items { s0 with nFind := s0.nFind + 1 }).pending := by
      refine le_trans hp ?_
      exact scanGo_pending_le env.markOk (spIdsOf items) _
    split at h
    · exact emptyBranch_cont_pending env _ _ _ _ h hps
    · exact batchBranch_cont_pending env mc _ _ _ _ _ h hps

theorem step_cont_pending (env : LoopEnv) (mc : Nat) (s s' : LoopState)
    (evs : List Event) (h : step env mc s = .cont s' evs) (hp : 0 ≤ s.pending) :
    0 ≤ s'.pending := by
  unfold step at h
  split at h
  · cases h
  · split at h
    · dsimp only at h
      split at h
      · exact stepBody_cont_pending env mc _ _ _ _ h hp
      · cases h
    · exact stepBody_cont_pending env mc _ _ _ _ h hp

theorem iterState_pending_nonneg (env : LoopEnv) (mc : Nat) :
    ∀ (n : Nat) (s s' : LoopState), 0 ≤ s.pending →
      iterState env mc n s = some s' → 0 ≤ s'.pending := by
  intro n
  induction n with
  | zero =>
    intro s s' hp h
    cases h
    exact hp
  | succ n ih =>
    intro s s' hp h
    unfold iterState at h
    split at h
    · cases h
    · next s1 evs hstep =>
      exact ih s1 s' (step_cont_pending env mc s s1 evs hstep hp) h

theorem runLoop_scrollZero (env : LoopEnv) (mc : Nat) :
    ∀ (n : Nat) (s : LoopState), 0 ≤ s.pending →
      scrollZero (runLoop env mc n s).1 := by
  intro n
  induction n with
  | zero => intro s _; exact scrollZero_nil
  | succ n ih =>
    intro s hp
    unfold runLoop
    cases hstep : step env mc s with
    | done c evs =>
      have := step_scrollZero env mc s hp
      rw [hstep] at this
      exact this
    | cont s1 evs =>
      have h1 := step_scrollZero env mc s hp
      rw [hstep] at h1
      simp only [evsOf] at h1
      exact scrollZero_append _ _ h1 (ih s1 (step_cont_pending env mc s s1 evs hstep hp))

/-- C3 counterexample: a run in which `pending_batch_buttons` drops from 1
to 0 although no successful click occurred.  The first iteration counts one
button whose click fails; in the second iteration the button is gone, so
lines 490-493 reset the positive pending count to 0.  The whole two-
iteration event log is the single reset event — no click event exists. -/
theorem C3_counterexample :
    (iterState envReset 10 1 initState).map (fun s => s.pending) = some 1 ∧
    (iterState envReset 10 2 initState).map (fun s => s.pending) = some 0 ∧
    (runLoop envReset 10 2 initState).1 = [Event.pendingReset 1] := by
  refine ⟨?_, ?_, ?_⟩ <;> decide

/-- C3 (amended): throughout any run of `send_proposals`,
`pending_batch_buttons` is always ≥ 0, and a page scroll (successful or
failed) is only ever issued while it equals 0; within a batch every
successful click lowers it by exactly one with floor 0 (so it is unchanged
by a click that arrives when it is already 0), and — beyond the increments
of the scan — the only other operation that changes it is the
reset-to-zero branch taken when a scan finds no eligible buttons while the
count is positive. -/
theorem C3_amended_pending_policy :
    (∀ (env : LoopEnv) (mc n : Nat) (s' : LoopState),
        iterState env mc n initState = some s' → 0 ≤ s'.pending) ∧
    (∀ (env : LoopEnv) (mc n : Nat) (p : Int),
        (Event.scrolled p ∈ (runLoop env mc n initState).1 ∨
          Event.scrollFailed p ∈ (runLoop env mc n initState).1) → p = 0) ∧
    (∀ (env : LoopEnv) (mc : Nat) (ids : List Nat) (b : BatchAcc), 0 ≤ b.pending →
        ∃ tail, (accOf (batchGo env mc ids b)).events = b.events ++ tail ∧
          (∀ e ∈ tail, isClickEv e = true) ∧
          (accOf (batchGo env mc ids b)).pending =
            max (b.pending - (clickCount tail : Int)) 0) := by
  refine ⟨?_, ?_, ?_⟩
  · intro env mc n s' h
    exact iterState_pending_nonneg env mc n initState s' (by decide) h
  · intro env mc n p hp
    exact runLoop_scrollZero env mc n initState (by decide) p hp
  · intro env mc ids b hb
    obtain ⟨tail, h1, h2, h3, _⟩ := batchGo_spec env mc ids b hb
    exact ⟨tail, h1, h2, h3⟩

/-- C3 witness: a concrete batch of one clickable button starting at
pending = 2 ends at pending = 1 having recorded exactly one click. -/
theorem C3_witness :
    (∃ tail, (accOf (batchGo envQuick 5 [0] batchW)).events = batchW.events ++ tail ∧
        (∀ e ∈ tail, isClickEv e = true) ∧
        (accOf (batchGo envQuick 5 [0] batchW)).pending =
          max (batchW.pending - (clickCount tail : Int)) 0) ∧
    (accOf (batchGo envQuick 5 [0] batchW)).pending = 1 :=
  ⟨C3_amended_pending_policy.2.2 envQuick 5 [0] batchW (by decide), by decide⟩

/-! ### Progress bounds of one iteration (C4) -/

theorem batchGo_clicked_mono (env : LoopEnv) (mc : Nat) :
    ∀ (ids : List Nat) (b : BatchAcc),
      b.clickedCount ≤ (accOf (batchGo env mc ids b)).clickedCount ∧
        (b.clickedCount ≤ mc → (accOf (batchGo env mc ids b)).clickedCount ≤ mc) := by
  intro ids
  induction ids with
  | nil => intro b; exact ⟨le_rfl, fun h => h⟩
  | cons a rest ih =>
    intro b
    simp only [batchGo]
    split
    · exact ⟨le_rfl, fun h => h⟩
    · split
      · exact ih { b with nBtn := b.nBtn + 1 }
      · exact ⟨le_rfl, fun h => h⟩
      · next hlt _ =>
        have hcc : b.clickedCount < mc := by omega
        have hcu : (clickUpdate env a b).clickedCount = b.clickedCount + 1 := rfl
        split
        · simp only [accOf, hcu]
          exact ⟨by omega, fun _ => by omega⟩
        · obtain ⟨h1, h2⟩ := ih (clickUpdate env a b)
          rw [hcu] at h1 h2
          exact ⟨by omega, fun _ => h2 (by omega)⟩

theorem doScroll_bounds (env : LoopEnv) (s : LoopState) :
    s.totalScrolls ≤ ((doScroll env s).1).totalScrolls ∧
      ((doScroll env s).1).totalScrolls ≤ s.totalScrolls + 1 ∧
      ((doScroll env s).1).clickedCount = s.clickedCount := by
  unfold doScroll
  split
  · exact ⟨Nat.le_succ _, le_rfl, rfl⟩
  · exact ⟨le_rfl, Nat.le_succ _, rfl⟩

theorem emptyBranch_cont_bounds (env : LoopEnv) (s2 : LoopState) (evs0 : List Event)
    (s' : LoopState) (evs : List Event) (h : emptyBranch env s2 evs0 = .cont s' evs) :
    s2.totalScrolls ≤ s'.totalScrolls ∧ s'.totalScrolls ≤ s2.totalScrolls + 1 ∧
      s'.clickedCount = s2.clickedCount := by
  unfold emptyBranch at h
  split at h
  · cases h
    exact doScroll_bounds env s2
  · cases h
    exact ⟨le_rfl, Nat.le_succ _, rfl⟩

theorem batchBranch_cont_bounds (env : LoopEnv) (mc : Nat) (s3 : LoopState)
    (avail : List Nat) (evs0 : List Event) (s' : LoopState) (evs : List Event)
    (h : batchBranch env mc s3 avail evs0 = .cont s' evs) :
    s3.totalScrolls ≤ s'.totalScrolls ∧ s'.totalScrolls ≤ s3.totalScrolls + 1 ∧
      s3.clickedCount ≤ s'.clickedCount ∧
      (s3.clickedCount ≤ mc → s'.clickedCount ≤ mc) := by
  unfold batchBranch at h
  split at h
  · cases h
  · next b hb =>
    obtain ⟨hm1, hm2⟩ := batchGo_clicked_mono env mc avail (batchInit s3)
    rw [hb] at hm1 hm2
    simp only [accOf] at hm1 hm2
    have hmerge_ts : (batchMerge s3 b).totalScrolls = s3.totalScrolls := rfl
    have hmerge_cc : (batchMerge s3 b).clickedCount = b.clickedCount := rfl
    have hinit_cc : (batchInit s3).clickedCount = s3.clickedCount := rfl
    rw [hinit_cc] at hm1 hm2
    dsimp only at h
    split at h
    · cases h
    · split at h
      · cases h
        obtain ⟨d1, d2, d3⟩ := doScroll_bounds env (batchMerge s3 b)
        rw [hmerge_ts] at d1 d2
        rw [d3, hmerge_cc]
        exact ⟨d1, d2, hm1, hm2⟩
      · split at h
        · cases h
          rw [hmerge_ts, hmerge_cc]
          exact ⟨le_rfl, Nat.le_succ _, hm1, hm2⟩
        · cases h
          obtain ⟨d1, d2, d3⟩ := doScroll_bounds env (batchMerge s3 b)
          rw [hmerge_ts] at d1 d2
          rw [d3, hmerge_cc]
          exact ⟨d1, d2, hm1, hm2⟩

theorem stepBody_cont_bounds (env : LoopEnv) (mc : Nat) (s0 : LoopState)
    (evs0 : List Event) (s' : LoopState) (evs : List Event)
    (h : stepBody env mc s0 evs0 = .cont s' evs) :
    s0.totalScrolls ≤ s'.totalScrolls ∧ s'.totalScrolls ≤ s0.totalScrolls + 1 ∧
      s0.clickedCount ≤ s'.clickedCount ∧
      (s0.clickedCount ≤ mc → s'.clickedCount ≤ mc) := by
  unfold stepBody at h
  split at h
  · cases h
    exact ⟨le_rfl, Nat.le_succ _, le_rfl, fun hx => hx⟩
  · next items hfe =>
    dsimp only at h
    split at h
    · obtain ⟨h1, h2, h3⟩ := emptyBranch_cont_bounds env _ _ _ _ h
      have e1 : s0.totalScrolls ≤ s'.totalScrolls := h1
      have e2 : s'.totalScrolls ≤ s0.totalScrolls + 1 := h2
      have e3 : s'.clickedCount = s0.clickedCount := h3
      exact ⟨e1, e2, by omega, fun hx => by omega⟩
    · obtain ⟨h1, h2, h3, h4⟩ := batchBranch_cont_bounds env mc _ _ _ _ _ h
      exact ⟨h1, h2, h3, h4⟩

theorem step_cont_props (env : LoopEnv) (mc : Nat) (s s' : LoopState)
    (evs : List Event) (h : step env mc s = .cont s' evs) :
    s.totalScrolls < 100 ∧ s.totalScrolls ≤ s'.totalScrolls ∧
      s'.totalScrolls ≤ s.totalScrolls + 1 ∧ s.clickedCount ≤ s'.clickedCount ∧
      (s.clickedCount ≤ mc → s'.clickedCount ≤ mc) := by
  unfold step at h
  split at h
  · cases h
  · next hts =>
    split at h
    · dsimp only at h
      split at h
      · obtain ⟨h1, h2, h3, h4⟩ := stepBody_cont_bounds env mc _ _ _ _ h
        exact ⟨by omega, h1, h2, h3, h4⟩
      · cases h
    · obtain ⟨h1, h2, h3, h4⟩ := stepBody_cont_bounds env mc _ _ _ _ h
      exact ⟨by omega, h1, h2, h3, h4⟩

theorem iterState_shift (env : LoopEnv) (mc : Nat) (n : Nat) (s s1 : LoopState)
    (evs : List Event) (hstep : step env mc s = .cont s1 evs) :
    iterState env mc (n + 1) s = iterState env mc n s1 := by
  show (match step env mc s with
    | .done _ _ => none
    | .cont s' _ => iterState env mc n s') = iterState env mc n s1
  rw [hstep]

/-! ### Termination (C4) -/

theorem batchGo_clickFail_one (mc a : Nat) (b : BatchAcc) (hcc : b.clickedCount < mc) :
    batchGo envSpin mc [a] b = .finished { b with nBtn := b.nBtn + 1 } := by
  simp only [batchGo]
  rw [if_neg (by omega : ¬ b.clickedCount ≥ mc)]
  rfl

/-- One iteration of the click-always-fails environment keeps the loop in
the spinning invariant: nothing is clicked, nothing is scrolled, no error
accumulates. -/
theorem spin_step (s : LoopState) (h : SpinInv s) :
    ∃ s', step envSpin 10 s = .cont s' [] ∧ SpinInv s' := by
  obtain ⟨hts, herr, hcc, hcase⟩ := h
  have hg1 : ¬ s.totalScrolls ≥ 100 := by omega
  have hg2 : ¬ s.errors ≥ 3 := by omega
  have hfe : findElements (envSpin.findRes s.nFind) = .ok [(0, "Send Proposal")] := rfl
  have hsp : spIdsOf [(0, "Send Proposal")] = [0] := by decide
  rcases hcase with ⟨hp, hd⟩ | ⟨hp, hd⟩
  · have hsc : scanButtons envSpin.markOk [0] s.dom
        s.pending s.totalDetected s.nMark =
        { dom := s.dom, pending := s.pending, totalDetected := s.totalDetected,
          nMark := s.nMark, available := [0], newly := 0 } := by
      unfold scanButtons
      simp only [scanGo, hd]
      simp
    refine ⟨{ s with nFind := s.nFind + 1, errors := 0, nBtn := s.nBtn + 1 }, ?_, ?_⟩
    · unfold step
      rw [if_neg hg1, if_neg hg2]
      unfold stepBody
      rw [hfe]
      dsimp only
      unfold scanMerge
      rw [hsp]
      dsimp only
      rw [hsc]
      dsimp only
      rw [if_neg (by decide : ¬ ([0] : List Nat).isEmpty = true)]
      unfold batchBranch
      rw [batchGo_clickFail_one 10 0 _ (by show s.clickedCount < 10; omega)]
      dsimp only
      rw [if_neg (by show ¬ s.clickedCount ≥ 10; omega)]
      rw [if_neg (by show ¬ (false : Bool) = true; simp)]
      rw [if_pos (by show s.pending > 0; omega)]
      rfl
    · exact ⟨hts, rfl, hcc, Or.inl ⟨hp, hd⟩⟩
  · have hsc : scanButtons envSpin.markOk [0] s.dom
        s.pending s.totalDetected s.nMark =
        { dom := updDom s.dom 0 ⟨some "true", none⟩, pending := s.pending + 1,
          totalDetected := s.totalDetected + 1, nMark := s.nMark + 1,
          available := [0], newly := 1 } := by
      unfold scanButtons
      simp only [scanGo, hd]
      simp [markWrite, Marks.fresh, Marks.get, Marks.set, envSpin]
    refine ⟨
      { s with
          nFind := s.nFind + 1, errors := 0, nBtn := s.nBtn + 1,
          dom := updDom s.dom 0 ⟨some "true", none⟩, pending := s.pending + 1,
          totalDetected := s.totalDetected + 1, nMark := s.nMark + 1 }, ?_, ?_⟩
    · unfold step
      rw [if_neg hg1, if_neg hg2]
      unfold stepBody
      rw [hfe]
      dsimp only
      unfold scanMerge
      rw [hsp]
      dsimp only
      rw [hsc]
      dsimp only
      rw [if_neg (by decide : ¬ ([0] : List Nat).isEmpty = true)]
      unfold batchBranch
      rw [batchGo_clickFail_one 10 0 _ (by show s.clickedCount < 10; omega)]
      dsimp only
      rw [if_neg (by show ¬ s.clickedCount ≥ 10; omega)]
      rw [if_neg (by show ¬ (false : Bool) = true; simp)]
      rw [if_pos (by show s.pending + 1 > 0; omega)]
      rfl
    · refine ⟨hts, rfl, hcc, Or.inl ⟨by show s.pending + 1 = 1; omega, ?_⟩⟩
      show updDom s.dom 0 ⟨some "true", none⟩ 0 = ⟨some "true", none⟩
      simp [updDom]

theorem spin_runLoop_none : ∀ (n : Nat) (s : LoopState), SpinInv s →
    (runLoop envSpin 10 n s).2 = none := by
  intro n
  induction n with
  | zero => intro s _; rfl
  | succ n ih =>
    intro s h
    obtain ⟨s', hstep, hinv⟩ := spin_step s h
    unfold runLoop
    rw [hstep]
    exact ih s' hinv

/-- C4 counterexample: `send_proposals` does not terminate for every input.
In an environment whose page permanently shows one Send Proposal button
whose click always fails with a non-disconnect error, every iteration
resets `consecutive_errors` to 0 (the scan finds an eligible button), never
clicks, and never scrolls (the pending count stays positive), so no
termination condition is ever reached. -/
theorem C4_counterexample : ¬ Terminates envSpin 10 := by
  rintro ⟨n, c, hn⟩
  have h0 : SpinInv initState := by
    refine ⟨rfl, rfl, rfl, Or.inr ⟨rfl, rfl⟩⟩
  rw [spin_runLoop_none n initState h0] at hn
  cases hn

/-- C4 (amended): the loop stops when `clicked_count` reaches `max_count`,
when `total_scrolls` reaches `max_scrolls = 100`, or on reconnect failure,
and it terminates whenever every iteration makes progress — performs a
scroll or a successful click.  Iterations that do neither (a persistent
non-disconnect click failure with a positive pending count, or repeated
transient errors each followed by a successful reconnect) can recur without
bound, so the progress hypothesis cannot be dropped. -/
theorem C4_amended_termination (env : LoopEnv) (mc : Nat) (s0 : LoopState)
    (hcc : s0.clickedCount ≤ mc)
    (hprog : ∀ (n : Nat) (s s' : LoopState) (evs : List Event),
        iterState env mc n s0 = some s → step env mc s = .cont s' evs →
        s.totalScrolls < s'.totalScrolls ∨ s.clickedCount < s'.clickedCount) :
    ∃ n c, (runLoop env mc n s0).2 = some c := by
  suffices H : ∀ (k : Nat) (t : LoopState),
      (100 - t.totalScrolls) * (mc + 1) + (mc - t.clickedCount) ≤ k →
      t.clickedCount ≤ mc →
      (∀ (n : Nat) (s s' : LoopState) (evs : List Event),
          iterState env mc n t = some s → step env mc s = .cont s' evs →
          s.totalScrolls < s'.totalScrolls ∨ s.clickedCount < s'.clickedCount) →
      ∃ n c, (runLoop env mc n t).2 = some c by
    exact H _ s0 le_rfl hcc hprog
  intro k
  induction k with
  | zero =>
    intro t hk _ _
    have hts : 100 ≤ t.totalScrolls := by
      by_contra hlt
      push_neg at hlt
      have h1 : 1 ≤ 100 - t.totalScrolls := by omega
      have h2 : mc + 1 ≤ (100 - t.totalScrolls) * (mc + 1) := by
        calc mc + 1 = 1 * (mc + 1) := by ring
          _ ≤ (100 - t.totalScrolls) * (mc + 1) := Nat.mul_le_mul_right _ h1
      set Y := (100 - t.totalScrolls) * (mc + 1) with hY
      omega
    have hstep : step env mc t = .done t.clickedCount [] := by
      unfold step
      rw [if_pos hts]
    exact ⟨1, t.clickedCount, by simp [runLoop, hstep]⟩
  | succ k ih =>
    intro t hk hcc0 hprog0
    cases hstep : step env mc t with
    | done c evs => exact ⟨1, c, by simp [runLoop, hstep]⟩
    | cont s1 evs =>
      obtain ⟨hts100, htsm, htsb, hccm, hccle⟩ := step_cont_props env mc t s1 evs hstep
      have hp := hprog0 0 t s1 evs rfl hstep
      have hc1 : s1.clickedCount ≤ mc := hccle hcc0
      have hdec : (100 - s1.totalScrolls) * (mc + 1) + (mc - s1.clickedCount) ≤ k := by
        rcases Nat.lt_or_ge t.totalScrolls s1.totalScrolls with htlt | htge
        · have ha : 100 - s1.totalScrolls = (100 - t.totalScrolls) - 1 := by omega
          have hA : 100 - t.totalScrolls = ((100 - t.totalScrolls) - 1) + 1 := by omega
          have key : (100 - s1.totalScrolls) * (mc + 1) + (mc - s1.clickedCount) <
              (100 - t.totalScrolls) * (mc + 1) := by
            rw [ha]
            calc ((100 - t.totalScrolls) - 1) * (mc + 1) + (mc - s1.clickedCount)
                ≤ ((100 - t.totalScrolls) - 1) * (mc + 1) + mc := by
                  have hmm : mc - s1.clickedCount ≤ mc := Nat.sub_le _ _
                  omega
              _ < ((100 - t.totalScrolls) - 1) * (mc + 1) + (mc + 1) := by omega
              _ = (((100 - t.totalScrolls) - 1) + 1) * (mc + 1) := by ring
              _ = (100 - t.totalScrolls) * (mc + 1) := by rw [← hA]
          set X := (100 - s1.totalScrolls) * (mc + 1) with hX
          set Y := (100 - t.totalScrolls) * (mc + 1) with hY
          omega
        · have hts1 : s1.totalScrolls = t.totalScrolls := by omega
          have hcc1 : t.clickedCount < s1.clickedCount := by
            rcases hp with hp | hp
            · omega
            · exact hp
          rw [hts1]
          set P := (100 - t.totalScrolls) * (mc + 1) with hP
          omega
      have hprog1 : ∀ (n : Nat) (s s' : LoopState) (evs' : List Event),
          iterState env mc n s1 = some s → step env mc s = .cont s' evs' →
          s.totalScrolls < s'.totalScrolls ∨ s.clickedCount < s'.clickedCount := by
        intro n s s' evs' hit hst
        refine hprog0 (n + 1) s s' evs' ?_ hst
        rw [iterState_shift env mc n t s1 evs hstep]
        exact hit
      obtain ⟨n, c, hn⟩ := ih s1 hdec hc1 hprog1
      refine ⟨n + 1, c, ?_⟩
      unfold runLoop
      rw [hstep]
      simpa using hn

/-- C4 witness: with one button whose click succeeds and `max_count = 1`,
the very first iteration returns, so the progress hypothesis holds
vacuously and the run terminates. -/
theorem C4_amended_witness : ∃ n c, (runLoop envQuick 1 n initState).2 = some c := by
  have hdone : step envQuick 1 initState = .done 1 [Event.clickedBtn 0] := rfl
  refine C4_amended_termination envQuick 1 initState (by decide) ?_
  intro n s s' evs hit hstep
  cases n with
  | zero =>
    have hs : s = initState := by
      simpa [iterState] using hit.symm
    rw [hs, hdone] at hstep
    cases hstep
  | succ n =>
    have hnone : iterState envQuick 1 (n + 1) initState = none := by
      show (match step envQuick 1 initState with
        | .done _ _ => none
        | .cont s' _ => iterState envQuick 1 n s') = none
      rw [hdone]
    rw [hnone] at hit
    cases hit

/-! ### Template-term selection (C6) -/

/-- C6 counterexample: with the configured term "Public Terms" and a dropdown
whose only option "Ulanzi Terms (3)" yields zero normalised matches, the
interactive fallback pick of main_updated.py lines 1011-1017 still selects an
option, `_select_template_term` returns `True`, and the modal workflow runs
every subsequent step instead of aborting the item. -/
theorem C6_counterexample :
    termMatchesOf (normTerm "Public Terms") ["Ulanzi Terms (3)"] = [] ∧
      selectTemplateTermU termEnvPick "Public Terms" = (true, some "Ulanzi Terms (3)") ∧
      handleProposalModalU modalEnvPick "Public Terms" none =
        (.returned true,
          [StepTag.termT, StepTag.dateT, StepTag.commentT, StepTag.submitT]) :=
  ⟨rfl, rfl, rfl⟩

/-- C6 (amended): zero normalised matches are not by themselves a hard
error — main_updated.py first offers an interactive pick and two text
fallbacks — but whenever `_select_template_term` does return `False` (zero
matches with the pick cancelled and every fallback failing, as hypothesised
below), the modal handler raises `template_term_not_found`, catches it in its
own `except`, and aborts the item before the category-tag, date, comment and
submit steps. -/
theorem C6_amended_zero_match_abort (env : ModalEnv) (d : String) (tab : Option String)
    (hif : env.iframeFound = true)
    (hns : env.termEnv.nativeSelect = none)
    (hdp : env.termEnv.dropdownPresent = true)
    (hmt : termMatchesOf (normTerm (pyStrip (if d = "" then "Commission Tier Terms" else d)))
        (if env.termEnv.liTexts.isEmpty then env.termEnv.dropdownEllipsisTexts
          else env.termEnv.liTexts) = [])
    (hpk : env.termEnv.promptPick = none)
    (htf : env.termEnv.textEleFound = false)
    (hpe : env.termEnv.pageEllipsisTexts = []) :
    selectTemplateTermU env.termEnv d = (false, none) ∧
      handleProposalModalU env d tab = (.returned false, [StepTag.termT]) := by
  have hsel : selectTemplateTermU env.termEnv d = (false, none) := by
    unfold selectTemplateTermU
    rw [hns]
    dsimp only
    rw [hdp, htf, hpe]
    dsimp only [List.find?]
    rw [hmt, hpk]
    dsimp only [pickFrom]
    simp
  refine ⟨hsel, ?_⟩
  unfold handleProposalModalU
  rw [hif]
  dsimp only
  rw [hsel]
  rfl

/-- C6 witness: an environment where the only dropdown option does not match,
the interactive pick is cancelled and both text fallbacks fail, so the item is
aborted right after the term step. -/
theorem C6_witness :
    selectTemplateTermU modalEnvTermFail.termEnv "Public Terms" = (false, none) ∧
      handleProposalModalU modalEnvTermFail "Public Terms" none =
        (.returned false, [StepTag.termT]) :=
  C6_amended_zero_match_abort modalEnvTermFail "Public Terms" none rfl rfl rfl
    (by decide) rfl rfl rfl

/-! ### Category-tag entry (C7) -/

/-- C7: in `_input_tag_and_select` the typed search text is the category
label with all spaces removed; the first suggestion, with its trailing count
suffix stripped and its spaces removed, must equal the typed text
case-insensitively; on match the suggestion is clicked and its stripped text
returned, and on mismatch the method raises the mismatch error without
clicking any suggestion, which aborts the item right after the tag step of
the modal workflow. -/
theorem C7_tag_match_policy (env : TagEnv) (tab t : String)
    (hin : env.tagInputPresent = true) (hdd : env.dropdownPresent = true)
    (hopt : env.optionDivText = some t) :
    (pyLower (removeSpaces tab) = pyLower (removeSpaces (stripCountSuffix (pyStrip t))) →
      inputTagAndSelect env tab = .ok (pyStrip t)) ∧
    (pyLower (removeSpaces tab) ≠ pyLower (removeSpaces (stripCountSuffix (pyStrip t))) →
      inputTagAndSelect env tab =
        .error (tagMismatchMsg (removeSpaces tab)
          (removeSpaces (stripCountSuffix (pyStrip t)))) ∧
      ∀ (m : ModalEnv), m.tagEnv = env → m.iframeFound = true → (tab == "") = false →
        (handleProposalModalV1 m (some tab)).2 = [StepTag.termT, StepTag.tagT]) := by
  constructor
  · intro hEq
    unfold inputTagAndSelect
    rw [hin, hdd, hopt]
    dsimp only
    rw [if_neg (not_not_intro hEq)]
    rfl
  · intro hNe
    have herr : inputTagAndSelect env tab =
        .error (tagMismatchMsg (removeSpaces tab)
          (removeSpaces (stripCountSuffix (pyStrip t)))) := by
      unfold inputTagAndSelect
      rw [hin, hdd, hopt]
      dsimp only
      rw [if_pos hNe]
      rfl
    refine ⟨herr, ?_⟩
    intro m hm hif htab
    have htr : truthy (some tab) = true := by simp [truthy, htab]
    unfold handleProposalModalV1
    rw [hif, if_neg (by decide : ¬ ((!true) = true))]
    dsimp only
    unfold modalAfterTerm
    rw [if_pos htr]
    dsimp only
    rw [hm, show (some tab).getD "" = tab from rfl, herr]
    dsimp only
    split <;> rfl

/-- C7 witness: a category of "Home Audio" matches the suggestion
"Home Audio (23)" and the suggestion is clicked; against "Home Video (23)"
the mismatch error is raised and the modal workflow stops at the tag step. -/
theorem C7_witness :
    inputTagAndSelect tagEnvMatch "Home Audio" = .ok (pyStrip "Home Audio (23)") ∧
      inputTagAndSelect tagEnvMismatch "Home Audio" =
        .error (tagMismatchMsg (removeSpaces "Home Audio")
          (removeSpaces (stripCountSuffix (pyStrip "Home Video (23)")))) ∧
      (handleProposalModalV1 modalEnvTagBad (some "Home Audio")).2 =
        [StepTag.termT, StepTag.tagT] := by
  refine ⟨(C7_tag_match_policy tagEnvMatch "Home Audio" "Home Audio (23)"
    rfl rfl rfl).1 (by decide), ?_, ?_⟩
  · exact ((C7_tag_match_policy tagEnvMismatch "Home Audio" "Home Video (23)"
      rfl rfl rfl).2 (by decide)).1
  · exact ((C7_tag_match_policy tagEnvMismatch "Home Audio" "Home Video (23)"
      rfl rfl rfl).2 (by decide)).2 modalEnvTagBad rfl rfl (by decide)

/-! ### Date selection (C9) -/

/-- C9: `_select_tomorrow_date` computes tomorrow as the current date plus
one day and clicks the first calendar cell whose stripped text equals
the string of that day-of-month; a missing date button or a missing matching
cell (with the text fallback also failing) only makes the method return
`False`, and the modal workflow drops that result and still reaches the
comment and submit steps. -/
theorem C9_date_selection (env : DateEnv) (today : Date) :
    (∀ c, env.dateBtnPresent = true →
        env.cellTexts.find? (fun x => pyStrip x == toString (nextDay today).day) = some c →
        selectTomorrowDate env today = (true, some c) ∧
          pyStrip c = toString (nextDay today).day) ∧
    (env.dateBtnPresent = false → selectTomorrowDate env today = (false, none)) ∧
    (env.dateBtnPresent = true → env.textEleFound = false →
        env.cellTexts.find? (fun x => pyStrip x == toString (nextDay today).day) = none →
        selectTomorrowDate env today = (false, none)) ∧
    (∀ (m : ModalEnv) (tab : Option String), m.iframeFound = true →
        (truthy tab = false ∨
          (∃ v, inputTagAndSelect m.tagEnv (tab.getD "") = Except.ok v)) →
        StepTag.dateT ∈ (handleProposalModalV1 m tab).2 ∧
          StepTag.commentT ∈ (handleProposalModalV1 m tab).2 ∧
          StepTag.submitT ∈ (handleProposalModalV1 m tab).2) := by
  refine ⟨?_, ?_, ?_, ?_⟩
  · intro c hbtn hfind
    have hpred := List.find?_some hfind
    refine ⟨?_, eq_of_beq hpred⟩
    unfold selectTomorrowDate
    rw [hbtn, if_neg (by decide : ¬ ((!true) = true))]
    dsimp only
    rw [hfind]
  · intro hbtn
    unfold selectTomorrowDate
    rw [hbtn]
    rfl
  · intro hbtn htf hfind
    unfold selectTomorrowDate
    rw [hbtn, if_neg (by decide : ¬ ((!true) = true))]
    dsimp only
    rw [hfind, htf]
    rfl
  · intro m tab hif hd
    rcases hd with hf | ⟨v, hok⟩
    · simp [handleProposalModalV1, modalAfterTerm, hif, hf]
    · by_cases ht : truthy tab = true
      · simp [handleProposalModalV1, modalAfterTerm, hif, ht, hok]
      · simp [handleProposalModalV1, modalAfterTerm, hif, ht]

/-- C9 witness: with today 2026-10-30 the cell " 31 " is clicked; with the
date button missing the method returns `False` and the modal of the
no-category scenario still lists the comment and submit steps. -/
theorem C9_witness :
    selectTomorrowDate dateEnvW ⟨2026, 10, 30⟩ = (true, some " 31 ") ∧
      pyStrip " 31 " = toString (nextDay ⟨2026, 10, 30⟩).day ∧
      selectTomorrowDate dateEnvMissing ⟨2026, 10, 30⟩ = (false, none) ∧
      StepTag.commentT ∈ (handleProposalModalV1 modalEnvNoDate none).2 ∧
      StepTag.submitT ∈ (handleProposalModalV1 modalEnvNoDate none).2 := by
  obtain ⟨h1, -, -, h4⟩ := C9_date_selection dateEnvW ⟨2026, 10, 30⟩
  obtain ⟨-, h2, -, -⟩ := C9_date_selection dateEnvMissing ⟨2026, 10, 30⟩
  obtain ⟨ha, hb⟩ := h1 " 31 " rfl (by decide)
  obtain ⟨-, hc, hd⟩ := h4 modalEnvNoDate none rfl (Or.inl rfl)
  exact ⟨ha, hb, h2 rfl, hc, hd⟩

/-! ### Run-completion notifications of main_updated.py (C8) -/

theorem doScroll_not_notify (env : LoopEnv) (s : LoopState) :
    Event.isNotify (doScroll env s).2 = false := by
  unfold doScroll
  split <;> rfl

theorem filter_notify_clicks (l : List Event) (h : ∀ e ∈ l, isClickEv e = true) :
    l.filter Event.isNotify = [] := by
  induction l with
  | nil => rfl
  | cons a l ih =>
    have ha := h a (List.mem_cons_self a l)
    have hrest : ∀ e ∈ l, isClickEv e = true := fun e he => h e (List.mem_cons_of_mem a he)
    cases a <;> simp_all [isClickEv, Event.isNotify, List.filter]

theorem batchGo_filter_notify (env : LoopEnv) (mc : Nat) (avail : List Nat)
    (s3 : LoopState) :
    ((accOf (batchGo env mc avail (batchInit s3))).events).filter Event.isNotify = [] := by
  obtain ⟨tail, heq, hall⟩ := batchGo_events env mc avail (batchInit s3)
  rw [heq, show (batchInit s3).events = [] from rfl, List.nil_append]
  exact filter_notify_clicks tail hall

theorem emptyBranchU_notify (env : LoopEnv) (s2 : LoopState) (evs0 : List Event)
    (s1 : LoopState) (evs : List Event) (h : emptyBranchU env s2 evs0 = .cont s1 evs) :
    evs.filter Event.isNotify = evs0.filter Event.isNotify := by
  unfold emptyBranchU at h
  split at h
  · cases h
    rw [List.filter_append]
    simp [doScroll_not_notify]
  · cases h
    rw [List.filter_append]
    simp [Event.isNotify]

theorem batchBranchU_notify (env : LoopEnv) (mc : Nat) (s3 : LoopState)
    (avail : List Nat) (evs0 : List Event) :
    (∀ s1 evs, batchBranchU env mc s3 avail evs0 = .cont s1 evs →
        evs.filter Event.isNotify = evs0.filter Event.isNotify) ∧
    (∀ c evs, batchBranchU env mc s3 avail evs0 = .done c evs →
        evs.filter Event.isNotify =
          evs0.filter Event.isNotify ++ [Event.notified (notifyMsg c)]) := by
  have hbf := batchGo_filter_notify env mc avail s3
  constructor
  · intro s1 evs h
    unfold batchBranchU at h
    split at h
    · cases h
    · next b hb =>
      rw [hb] at hbf
      dsimp only [accOf] at hbf
      dsimp only at h
      split at h
      · cases h
      · split at h
        · cases h
          simp [List.filter_append, hbf, doScroll_not_notify]
        · split at h
          · cases h
            simp [List.filter_append, hbf]
          · cases h
            simp [List.filter_append, hbf, doScroll_not_notify]
  · intro c evs h
    unfold batchBranchU at h
    split at h
    · next b hb =>
      rw [hb] at hbf
      dsimp only [accOf] at hbf
      cases h
      simp [List.filter_append, hbf, Event.isNotify]
    · next b hb =>
      rw [hb] at hbf
      dsimp only [accOf] at hbf
      dsimp only at h
      split at h
      · cases h
        simp [List.filter_append, hbf, Event.isNotify]
      · split at h
        · cases h
        · split at h
          · cases h
          · cases h

theorem stepBodyU_notify_cont (env : LoopEnv) (mc : Nat) (s0 : LoopState)
    (evs0 : List Event) (s1 : LoopState) (evs : List Event)
    (h : stepBodyU env mc s0 evs0 = .cont s1 evs) :
    evs.filter Event.isNotify = evs0.filter Event.isNotify := by
  unfold stepBodyU at h
  split at h
  · split at h
    · cases h
      rfl
    · split at h
      · cases h
      · cases h
        rfl
  · dsimp only at h
    split at h
    · exact emptyBranchU_notify env _ evs0 s1 evs h
    · exact (batchBranchU_notify env mc _ _ evs0).1 s1 evs h

theorem stepBodyU_notify_raised (env : LoopEnv) (mc : Nat) (s0 : LoopState)
    (evs0 : List Event) (msg : String) (evs : List Event)
    (h : stepBodyU env mc s0 evs0 = .raised msg evs) :
    evs.filter Event.isNotify = evs0.filter Event.isNotify := by
  unfold stepBodyU at h
  split at h
  · split at h
    · cases h
    · split at h
      · cases h
        rfl
      · cases h
  · dsimp only at h
    split at h
    · unfold emptyBranchU at h
      split at h <;> cases h
    · unfold batchBranchU at h
      split at h
      · cases h
      · dsimp only at h
        split at h
        · cases h
        · split at h
          · cases h
          · split at h <;> cases h

theorem stepBodyU_notify_done (env : LoopEnv) (mc : Nat) (s0 : LoopState)
    (evs0 : List Event) (c : Nat) (evs : List Event)
    (h : stepBodyU env mc s0 evs0 = .done c evs) :
    evs.filter Event.isNotify =
      evs0.filter Event.isNotify ++ [Event.notified (notifyMsg c)] := by
  unfold stepBodyU at h
  split at h
  · split at h
    · cases h
    · split at h <;> cases h
  · dsimp only at h
    split at h
    · unfold emptyBranchU at h
      split at h <;> cases h
    · exact (batchBranchU_notify env mc _ _ evs0).2 c evs h

theorem stepU_notify_done (env : LoopEnv) (mc : Nat) (s : LoopState) (c : Nat)
    (evs : List Event) (h : stepU env mc s = .done c evs) :
    evs.filter Event.isNotify = [Event.notified (notifyMsg c)] := by
  unfold stepU at h
  split at h
  · cases h
    rfl
  · split at h
    · dsimp only at h
      split at h
      · have h2 := stepBodyU_notify_done env mc _ _ c evs h
        simpa [Event.isNotify] using h2
      · cases h
        rfl
    · have h2 := stepBodyU_notify_done env mc s [] c evs h
      simpa using h2

theorem stepU_notify_raised (env : LoopEnv) (mc : Nat) (s : LoopState) (msg : String)
    (evs : List Event) (h : stepU env mc s = .raised msg evs) :
    evs.filter Event.isNotify = [] := by
  unfold stepU at h
  split at h
  · cases h
  · split at h
    · dsimp only at h
      split at h
      · have h2 := stepBodyU_notify_raised env mc _ _ msg evs h
        simpa [Event.isNotify] using h2
      · cases h
    · have h2 := stepBodyU_notify_raised env mc s [] msg evs h
      simpa using h2

theorem stepU_notify_cont (env : LoopEnv) (mc : Nat) (s s1 : LoopState)
    (evs : List Event) (h : stepU env mc s = .cont s1 evs) :
    evs.filter Event.isNotify = [] := by
  unfold stepU at h
  split at h
  · cases h
  · split at h
    · dsimp only at h
      split at h
      · have h2 := stepBodyU_notify_cont env mc _ _ s1 evs h
        simpa [Event.isNotify] using h2
      · cases h
    · have h2 := stepBodyU_notify_cont env mc s [] s1 evs h
      simpa using h2

theorem runLoopU_notify (env : LoopEnv) (mc : Nat) : ∀ (fuel : Nat) (s : LoopState),
    (∀ evs c, runLoopU env mc fuel s = (evs, some (.ok c)) →
        evs.filter Event.isNotify = [Event.notified (notifyMsg c)]) ∧
    (∀ evs msg, runLoopU env mc fuel s = (evs, some (.error msg)) →
        evs.filter Event.isNotify = []) := by
  intro fuel
  induction fuel with
  | zero =>
    intro s
    constructor
    · intro evs c h
      simp [runLoopU] at h
    · intro evs msg h
      simp [runLoopU] at h
  | succ n ih =>
    intro s
    constructor
    · intro evs c h
      unfold runLoopU at h
      split at h
      · next c2 evs2 hstep =>
        simp only [Prod.mk.injEq] at h
        obtain ⟨rfl, h2⟩ := h
        obtain rfl : c2 = c := by simpa using h2
        exact stepU_notify_done env mc s _ _ hstep
      · next msg2 evs2 hstep =>
        simp only [Prod.mk.injEq] at h
        obtain ⟨-, h2⟩ := h
        simp at h2
      · next s2 evs2 hstep =>
        dsimp only at h
        simp only [Prod.mk.injEq] at h
        obtain ⟨rfl, h2⟩ := h
        rw [List.filter_append, stepU_notify_cont env mc s s2 evs2 hstep,
          List.nil_append]
        exact (ih s2).1 _ c (by rw [← h2])
    · intro evs msg h
      unfold runLoopU at h
      split at h
      · next c2 evs2 hstep =>
        simp only [Prod.mk.injEq] at h
        obtain ⟨-, h2⟩ := h
        simp at h2
      · next msg2 evs2 hstep =>
        simp only [Prod.mk.injEq] at h
        obtain ⟨rfl, h2⟩ := h
        exact stepU_notify_raised env mc s msg2 _ hstep
      · next s2 evs2 hstep =>
        dsimp only at h
        simp only [Prod.mk.injEq] at h
        obtain ⟨rfl, h2⟩ := h
        rw [List.filter_append, stepU_notify_cont env mc s s2 evs2 hstep,
          List.nil_append]
        exact (ih s2).2 _ msg (by rw [← h2])

/-- C8 counterexample: a run of the main_updated.py `send_proposals` that
aborts by re-raising the template-term error sends no notification at all,
and a successfully completed launched run sends two — the completion message
of the loop itself and the completion message of the caller
`_start_send_proposals` — so the sink is not invoked exactly once per run. -/
theorem C8_counterexample :
    (runLoopU envRaise 1 1 initState).1.filter Event.isNotify = [] ∧
      (runLoopU envRaise 1 1 initState).2 = some (.error "template_term_not_found") ∧
      (startSendProposals envNotify 1 1).filter Event.isNotify =
        [Event.notified (notifyMsg 1), Event.notified (callerOkMsg 1)] :=
  ⟨rfl, rfl, rfl⟩

/-- C8 (amended): within a run of the main_updated.py `send_proposals` loop
a normal return sends exactly one notification, whose message carries the
final sent count, while a run that re-raises sends none; the caller
`_start_send_proposals` then adds its own completion or failure message on
top. -/
theorem C8_amended_notification (env : LoopEnv) (mc : Nat) (fuel : Nat) (s : LoopState) :
    (∀ evs c, runLoopU env mc fuel s = (evs, some (.ok c)) →
        evs.filter Event.isNotify = [Event.notified (notifyMsg c)]) ∧
    (∀ evs msg, runLoopU env mc fuel s = (evs, some (.error msg)) →
        evs.filter Event.isNotify = []) :=
  runLoopU_notify env mc fuel s

/-- C8 witness: a one-iteration successful run of the notified loop sends
exactly the loop completion message for one sent proposal. -/
theorem C8_witness :
    [Event.clickedBtn 0, Event.notified (notifyMsg 1)].filter Event.isNotify =
      [Event.notified (notifyMsg 1)] :=
  (C8_amended_notification envNotify 1 1 initState).1
    [Event.clickedBtn 0, Event.notified (notifyMsg 1)] 1 rfl

end ImpactRpa
